import Mathlib

/-!
Verification development for the stage-invocation pipeline of the backend:
the retry/fallback executor (`app/agents/base_agent.py`), the stage result
parser (`app/agents/requirement_agent.py`), the session store
(`app/services/session_manager.py`) and the stage dispatch endpoints
(`app/api/generate.py`, `app/api/websocket.py`).

The Python code is shallowly embedded: Python dictionaries, lists, strings,
ints, booleans and None become the `PyVal` inductive; `json.dumps`/`json.loads`
are modelled by an executable serializer and parser over `PyVal` (restricted
to the JSON fragment without floats, which is the fragment the code
manipulates); Redis is modelled as an association store with per-key expiry
timestamps and an explicit fault set; exceptions become `Except`.
-/

/-- Python values, as produced by `json.loads` and manipulated by the agents.
Dictionaries are insertion-ordered association lists, as in Python. -/
inductive PyVal where
  | pnone
  | pbool (b : Bool)
  | pint (n : Int)
  | pstr (s : String)
  | plist (xs : List PyVal)
  | pdict (kvs : List (String × PyVal))

/-- Python exception classes raised by the embedded fragments. -/
inductive PyExn where
  | valueError
  | typeError
  | keyError
deriving DecidableEq

/-- Does the second character list start with the first one? -/
def leadMatch : List Char → List Char → Bool
  | [], _ => true
  | _ :: _, [] => false
  | a :: as, b :: bs => a == b && leadMatch as bs

/-- Does the second character list contain the first as a contiguous run? -/
def subScan (needle : List Char) : List Char → Bool
  | [] => needle.isEmpty
  | b :: bs => leadMatch needle (b :: bs) || subScan needle bs

/-- Substring test, Python `needle in haystack` for strings. -/
def strContains (hay needle : String) : Bool :=
  subScan needle.data hay.data

/-- Python truthiness (`if x:`). -/
def PyVal.truthy : PyVal → Bool
  | .pnone => false
  | .pbool b => b
  | .pint n => n != 0
  | .pstr s => s != ""
  | .plist xs => !xs.isEmpty
  | .pdict kvs => !kvs.isEmpty

/-- Python `field in v` for a string `field`: key membership for dicts,
element membership for lists, substring test for strings, `TypeError`
otherwise. -/
def pyContains : PyVal → String → Except PyExn Bool
  | .pdict kvs, field => .ok (kvs.any (fun kv => kv.1 == field))
  | .plist xs, field =>
      .ok (xs.any (fun x => match x with | .pstr t => t == field | _ => false))
  | .pstr s, field => .ok (strContains s field)
  | .pint _, _ => .error .typeError
  | .pbool _, _ => .error .typeError
  | .pnone, _ => .error .typeError

/-- Python dict assignment `d[k] = v`: replaces in place, appends new keys. -/
def dictSet : List (String × PyVal) → String → PyVal → List (String × PyVal)
  | [], k, v => [(k, v)]
  | (k', v') :: rest, k, v =>
      if k' == k then (k, v) :: rest else (k', v') :: dictSet rest k v

/-- Python item assignment `obj[k] = v` for a string key: only dicts support
it; lists, strings, ints, booleans and None raise `TypeError`. -/
def pySetItem : PyVal → String → PyVal → Except PyExn PyVal
  | .pdict kvs, k, v => .ok (.pdict (dictSet kvs k v))
  | _, _, _ => .error .typeError

/-- Python item read `obj[k]` for a string key. -/
def pyGetItem : PyVal → String → Except PyExn PyVal
  | .pdict kvs, k =>
      match kvs.find? (fun kv => kv.1 == k) with
      | some kv => .ok kv.2
      | none => .error .keyError
  | _, _ => .error .typeError

/-- Python iteration `for x in obj`: list elements, dict keys, string
characters; `TypeError` otherwise. -/
def pyIter : PyVal → Except PyExn (List PyVal)
  | .plist xs => .ok xs
  | .pdict kvs => .ok (kvs.map (fun kv => PyVal.pstr kv.1))
  | .pstr s => .ok (s.data.map (fun c => PyVal.pstr (String.singleton c)))
  | _ => .error .typeError

/-! ### A JSON codec over `PyVal`

Model of the `json` standard library as used by the agents and the session
manager, restricted to the fragment the code manipulates: objects, arrays,
strings (with the common escapes), integers, booleans and null. -/

/-- JSON whitespace. -/
def isWsChar (c : Char) : Bool := c == ' ' || c == '\t' || c == '\n' || c == '\r'

/-- Drop leading JSON whitespace. -/
def skipWs : List Char → List Char
  | [] => []
  | c :: cs => if isWsChar c then skipWs cs else c :: cs

/-- Parse the body of a JSON string after the opening quote; returns the
decoded characters and the rest of the input after the closing quote. -/
def parseStringBody : List Char → Option (List Char × List Char)
  | [] => none
  | c :: cs =>
    if c == '"' then some ([], cs)
    else if c == '\\' then
      match cs with
      | [] => none
      | e :: cs' =>
        let dec : Option Char :=
          if e == '"' then some '"'
          else if e == '\\' then some '\\'
          else if e == '/' then some '/'
          else if e == 'n' then some '\n'
          else if e == 't' then some '\t'
          else if e == 'r' then some '\r'
          else none
        match dec with
        | some d =>
          match parseStringBody cs' with
          | some (body, rest) => some (d :: body, rest)
          | none => none
        | none => none
    else
      match parseStringBody cs with
      | some (body, rest) => some (c :: body, rest)
      | none => none

/-- Split a maximal run of decimal digits off the front. -/
def takeDigits : List Char → List Char × List Char
  | [] => ([], [])
  | c :: cs =>
    if c.isDigit then
      let (ds, rest) := takeDigits cs
      (c :: ds, rest)
    else ([], c :: cs)

/-- Decimal value of a digit run. -/
def digitsToNat (ds : List Char) : Nat :=
  ds.foldl (fun acc c => acc * 10 + (c.toNat - '0'.toNat)) 0

/-- Parse a JSON integer (floats are outside the modelled fragment). -/
def parseNumber : List Char → Option (PyVal × List Char)
  | [] => none
  | c :: cs =>
    if c == '-' then
      match takeDigits cs with
      | ([], _) => none
      | (ds, rest) => some (.pint (-(digitsToNat ds : Int)), rest)
    else if c.isDigit then
      match takeDigits (c :: cs) with
      | (ds, rest) => some (.pint (Int.ofNat (digitsToNat ds)), rest)
    else none

/-- Drop an expected literal from the front of the input. -/
def dropLit (lit : List Char) (cs : List Char) : Option (List Char) :=
  if leadMatch lit cs then some (cs.drop lit.length) else none

mutual

/-- Fuel-indexed recursive-descent JSON value parser. -/
def parseVal : Nat → List Char → Option (PyVal × List Char)
  | 0, _ => none
  | fuel + 1, cs =>
    match skipWs cs with
    | [] => none
    | c :: rest =>
      if c == '\x7b' then
        match skipWs rest with
        | '\x7d' :: rest' => some (.pdict [], rest')
        | rest' => parseMembers fuel rest' []
      else if c == '[' then
        match skipWs rest with
        | ']' :: rest' => some (.plist [], rest')
        | rest' => parseItems fuel rest' []
      else if c == '"' then
        match parseStringBody rest with
        | some (body, rest') => some (.pstr (String.mk body), rest')
        | none => none
      else if c == 't' then
        match dropLit ['t', 'r', 'u', 'e'] (c :: rest) with
        | some rest' => some (.pbool true, rest')
        | none => none
      else if c == 'f' then
        match dropLit ['f', 'a', 'l', 's', 'e'] (c :: rest) with
        | some rest' => some (.pbool false, rest')
        | none => none
      else if c == 'n' then
        match dropLit ['n', 'u', 'l', 'l'] (c :: rest) with
        | some rest' => some (.pnone, rest')
        | none => none
      else parseNumber (c :: rest)

/-- Parse the members of a JSON object after the opening brace; duplicate
keys collapse to the last occurrence, as in Python. -/
def parseMembers : Nat → List Char → List (String × PyVal) → Option (PyVal × List Char)
  | 0, _, _ => none
  | fuel + 1, cs, acc =>
    match skipWs cs with
    | '"' :: rest =>
      match parseStringBody rest with
      | some (key, rest1) =>
        match skipWs rest1 with
        | ':' :: rest2 =>
          match parseVal fuel rest2 with
          | some (v, rest3) =>
            match skipWs rest3 with
            | ',' :: rest4 => parseMembers fuel rest4 (dictSet acc (String.mk key) v)
            | '\x7d' :: rest4 => some (.pdict (dictSet acc (String.mk key) v), rest4)
            | _ => none
          | none => none
        | _ => none
      | none => none
    | _ => none

/-- Parse the items of a JSON array after the opening bracket. -/
def parseItems : Nat → List Char → List PyVal → Option (PyVal × List Char)
  | 0, _, _ => none
  | fuel + 1, cs, acc =>
    match parseVal fuel cs with
    | some (v, rest) =>
      match skipWs rest with
      | ',' :: rest' => parseItems fuel rest' (acc ++ [v])
      | ']' :: rest' => some (.plist (acc ++ [v]), rest')
      | _ => none
    | none => none

end

/-- Model of `json.loads`: `none` models a raised `JSONDecodeError`. -/
def jsonLoads (s : String) : Option PyVal :=
  match parseVal (s.length * 2 + 8) s.data with
  | some (v, rest) => if (skipWs rest).isEmpty then some v else none
  | none => none

/-- Escape one character for a JSON string literal. -/
def escChar (c : Char) : List Char :=
  if c == '"' then ['\\', '"']
  else if c == '\\' then ['\\', '\\']
  else if c == '\n' then ['\\', 'n']
  else if c == '\t' then ['\\', 't']
  else if c == '\r' then ['\\', 'r']
  else [c]

/-- Escape a string for a JSON string literal. -/
def escapeString (s : String) : String :=
  String.mk (s.data.flatMap escChar)

mutual

/-- Model of `json.dumps` with the default separators. -/
def jsonDumps : PyVal → String
  | .pnone => "null"
  | .pbool true => "true"
  | .pbool false => "false"
  | .pint n => toString n
  | .pstr s => "\"" ++ escapeString s ++ "\""
  | .plist xs => "[" ++ dumpsItems xs ++ "]"
  | .pdict kvs => "\x7b" ++ dumpsMembers kvs ++ "\x7d"

/-- Serialize array items, comma separated. -/
def dumpsItems : List PyVal → String
  | [] => ""
  | [x] => jsonDumps x
  | x :: y :: xs => jsonDumps x ++ ", " ++ dumpsItems (y :: xs)

/-- Serialize object members, comma separated. -/
def dumpsMembers : List (String × PyVal) → String
  | [] => ""
  | [kv] => "\"" ++ escapeString kv.1 ++ "\": " ++ jsonDumps kv.2
  | kv :: kv' :: kvs =>
      "\"" ++ escapeString kv.1 ++ "\": " ++ jsonDumps kv.2 ++ ", " ++ dumpsMembers (kv' :: kvs)

end

/-! ### The stage result parser (`RequirementAgent.parse_response`) -/

/-- Characters removed by Python's `str.strip()` with no argument. -/
def isStripChar (c : Char) : Bool :=
  c == ' ' || c == '\t' || c == '\n' || c == '\r' || c == '\x0b' || c == '\x0c'

/-- Drop leading strip characters. -/
def dropWsRun : List Char → List Char
  | [] => []
  | c :: cs => if isStripChar c then dropWsRun cs else c :: cs

/-- Python `s.strip()`. -/
def pyStrip (s : String) : String :=
  String.mk ((dropWsRun (dropWsRun s.data.reverse).reverse))

/-- Python `s.startswith(pat)`. -/
def pyStartsWith (s pat : String) : Bool := leadMatch pat.data s.data

/-- Python `s.endswith(pat)`. -/
def pyEndsWith (s pat : String) : Bool := leadMatch pat.data.reverse s.data.reverse

/-- Python `s[n:]`. -/
def pyDropLeft (s : String) (n : Nat) : String := String.mk (s.data.drop n)

/-- Python `s[:-n]`. -/
def pyDropRight (s : String) (n : Nat) : String :=
  String.mk (s.data.take (s.data.length - n))

/-- Markdown code-fence stripping at the head of `parse_response`. -/
def stripFences (response : String) : String :=
  let r0 := pyStrip response
  let r1 := if pyStartsWith r0 "```json" then pyDropLeft r0 7 else r0
  let r2 := if pyStartsWith r1 "```" then pyDropLeft r1 3 else r1
  let r3 := if pyEndsWith r2 "```" then pyDropRight r2 3 else r2
  pyStrip r3

/-- The required top-level fields of a requirement analysis. -/
def requiredFields : List String :=
  ["function_points", "business_rules", "data_models", "api_definitions",
   "test_focus", "risk_points"]

/-- One defaulting step: `if k not in cur: cur[k] = default`. -/
def ensureKey (cur : PyVal) (kd : String × PyVal) : Except PyExn PyVal := do
  let c ← pyContains cur kd.1
  if c then pure cur else pySetItem cur kd.1 kd.2

/-- The required fields paired with their default `[]`. -/
def requiredDefaults : List (String × PyVal) :=
  requiredFields.map (fun f => (f, PyVal.plist []))

/-- Defaults applied to each entry of `data_models`. -/
def dataModelDefaults : List (String × PyVal) :=
  [("entity", .pstr "Unknown"), ("fields", .plist [])]

/-- Defaults applied to each entry of `api_definitions`. -/
def apiDefaults : List (String × PyVal) :=
  [("method", .pstr "GET"), ("url", .pstr ""), ("description", .pstr "")]

/-- Apply the per-entry defaults to one element of a nested container. -/
def fixEntry (defaults : List (String × PyVal)) (elem : PyVal) : Except PyExn PyVal :=
  defaults.foldlM ensureKey elem

/-- Python's `for model in container: ...` defaulting loop: list elements are
defaulted in place; iterating a dict or string yields immutable strings, so
the loop either raises or leaves the container unchanged. -/
def fixContainer (defaults : List (String × PyVal)) (container : PyVal) : Except PyExn PyVal :=
  match container with
  | .plist xs => do
      let xs' ← xs.mapM (fixEntry defaults)
      pure (.plist xs')
  | other => do
      let items ← pyIter other
      let _ ← items.mapM (fixEntry defaults)
      pure other

/-- The validation/defaulting body of `parse_response` after `json.loads`. -/
def applyDefaults (v : PyVal) : Except PyExn PyVal := do
  let v1 ← requiredDefaults.foldlM ensureKey v
  let dm ← pyGetItem v1 "data_models"
  let v2 ←
    if dm.truthy then do
      let dm' ← fixContainer dataModelDefaults dm
      pySetItem v1 "data_models" dm'
    else pure v1
  let ad ← pyGetItem v2 "api_definitions"
  let v3 ←
    if ad.truthy then do
      let ad' ← fixContainer apiDefaults ad
      pySetItem v2 "api_definitions" ad'
    else pure v2
  pure v3

/-- `RequirementAgent.parse_response`, parameterized by the `json.loads`
model: a decode failure (`none`) is re-raised as `ValueError`; any other
exception of the body propagates unchanged. -/
def parse_response (loads : String → Option PyVal) (response : String) : Except PyExn PyVal :=
  match loads (stripFences response) with
  | none => .error .valueError
  | some v => applyDefaults v

/-! ### The retry/fallback executor (`BaseAgent._call_llm_with_retry`)

The provider call wrapped in `asyncio.wait_for` is abstracted as an oracle
from the global call index and the active model name to an outcome; the
three `except` arms of the source (timeout, OpenAI API error, generic
exception) retry identically and differ only in the terminal error raised.
The source recursion into the fallback phase is embedded with explicit fuel;
the fuel-out branch is unreachable from the entry point because the
fallback guard fails inside the fallback phase. -/

/-- Outcome of one awaited provider call. -/
inductive CallOutcome where
  | success (text : String)
  | timeoutErr
  | apiErr (msg : String)
  | otherErr (msg : String)
deriving DecidableEq

/-- Did this outcome raise? -/
def CallOutcome.isFail : CallOutcome → Bool
  | .success _ => false
  | _ => true

/-- Python `str(e)` of the caught provider error. -/
def errStr : CallOutcome → String
  | .success t => t
  | .timeoutErr => ""
  | .apiErr m => m
  | .otherErr m => m

/-- The typed terminal errors raised by the executor. -/
inductive TerminalError where
  | timedOut (attempts : Nat) (model : String)
  | apiFailed (attempts : Nat) (model : String) (msg : String)
  | otherFailed (attempts : Nat) (model : String) (msg : String)
  | bothFailed (primaryModel fallbackModel primaryErr fallbackErr : String)
  | outOfFuel
deriving DecidableEq

/-- Python `str(e)` of a terminal executor error (`AppException.message`). -/
def TerminalError.message : TerminalError → String
  | .timedOut n _ => "LLM API call timed out after " ++ toString n ++ " attempts"
  | .apiFailed n _ m => "OpenAI API call failed after " ++ toString n ++ " attempts: " ++ m
  | .otherFailed n _ m => "LLM API call failed after " ++ toString n ++ " attempts: " ++ m
  | .bothFailed _ _ _ _ => "Both primary and fallback models failed"
  | .outOfFuel => "out of fuel"

/-- The terminal error raised on budget exhaustion without fallback, per
failure class, with `attempts = max_retries` and `model = original_model`. -/
def terminalOf : CallOutcome → Nat → String → TerminalError
  | .timeoutErr, n, m => .timedOut n m
  | .apiErr s, n, m => .apiFailed n m s
  | .otherErr s, n, m => .otherFailed n m s
  | .success _, n, m => .otherFailed n m ""

/-- `if self.fallback_model and self.model_name != self.fallback_model`. -/
def fallbackGuard : Option String → String → Bool
  | none, _ => false
  | some fb, model => fb != "" && model != fb

/-- Observable events of one executor run. -/
inductive TraceEv where
  | call (model : String)
  | sleep (secs : Nat)
  | switchModel (newModel : String)
deriving DecidableEq

/-- Result of an executor run: the returned text (or `none` for the
zero-budget fall-through), the final `self.model_name`, the next global
call index, and the event trace. -/
structure RunRes where
  res : Except TerminalError (Option String)
  model : String
  callsEnd : Nat
  trace : List TraceEv

/-- The retry loop of `_call_llm_with_retry`. `origModel` is the
`original_model` captured at entry, `model` the current `self.model_name`,
`remaining = max_retries - attempt` the iterations left. On the last
attempt with the fallback guard true, the source re-enters the whole
function with the fallback as active model; on success the model is
restored to `original_model` (the source's conditional assignment always
merges to `original_model`). -/
def retryGo (oracle : Nat → String → CallOutcome) (maxRetries : Nat)
    (fallbackOpt : Option String) :
    Nat → String → String → Nat → Nat → Nat → RunRes
  | 0, _origModel, model, _remaining, _attempt, callIdx =>
      ⟨.error .outOfFuel, model, callIdx, []⟩
  | _fuel + 1, _origModel, model, 0, _attempt, callIdx =>
      ⟨.ok none, model, callIdx, []⟩
  | fuel + 1, origModel, model, remaining' + 1, attempt, callIdx =>
      match oracle callIdx model with
      | .success t => ⟨.ok (some t), origModel, callIdx + 1, [.call model]⟩
      | outcome =>
        if attempt < maxRetries - 1 then
          let rest := retryGo oracle maxRetries fallbackOpt fuel origModel model
            remaining' (attempt + 1) (callIdx + 1)
          ⟨rest.res, rest.model, rest.callsEnd,
            .call model :: .sleep (2 ^ attempt) :: rest.trace⟩
        else
          match fallbackOpt with
          | some fb =>
            if fb != "" && model != fb then
              let inner := retryGo oracle maxRetries fallbackOpt fuel fb fb
                maxRetries 0 (callIdx + 1)
              match inner.res with
              | .ok r =>
                  ⟨.ok r, origModel, inner.callsEnd,
                    .call model :: .switchModel fb :: inner.trace⟩
              | .error fe =>
                  ⟨.error (.bothFailed origModel fb (errStr outcome) fe.message),
                    origModel, inner.callsEnd,
                    .call model :: .switchModel fb :: inner.trace⟩
            else
              ⟨.error (terminalOf outcome maxRetries origModel), model, callIdx + 1,
                [.call model]⟩
          | none =>
              ⟨.error (terminalOf outcome maxRetries origModel), model, callIdx + 1,
                [.call model]⟩

/-- `BaseAgent._call_llm_with_retry` on an agent configured with
`max_retries = maxRetries`, `fallback_model = fallbackOpt` and
`self.model_name = model`. -/
def call_llm_with_retry (oracle : Nat → String → CallOutcome) (maxRetries : Nat)
    (fallbackOpt : Option String) (model : String) : RunRes :=
  retryGo oracle maxRetries fallbackOpt (2 * maxRetries + 2) model model maxRetries 0 0

/-! ### The session store (`SessionManager`)

Redis is modelled as an association store of keys to values with an absolute
expiry timestamp, together with a set of keys on which commands fail (to
model connection errors). Every operation takes the current time `now`;
`SETEX key ttl v` stores `(v, now + ttl)`. Timestamps returned by
`datetime.utcnow().isoformat()` are abstracted to the decimal rendering of
`now`. -/

/-- The Redis connection error class. -/
inductive RedisErr where
  | connectionFailed
deriving DecidableEq

/-- The Redis model: entries `(key, value, expiresAt)` plus fault keys. -/
structure RedisModel where
  entries : List (String × String × Nat)
  failKeys : List String

/-- The stored `(value, expiresAt)` pair at a key, dead or alive. -/
def redisLookup (r : RedisModel) (key : String) : Option (String × Nat) :=
  (r.entries.find? (fun e => e.1 == key)).map (fun e => e.2)

/-- Redis `GET`: `none` for a missing or expired key; raises on fault keys. -/
def redisGet (r : RedisModel) (key : String) (now : Nat) : Except RedisErr (Option String) :=
  if key ∈ r.failKeys then .error .connectionFailed
  else
    match redisLookup r key with
    | some (v, expAt) => if now < expAt then .ok (some v) else .ok none
    | none => .ok none

/-- Redis `SETEX`: stores the value with expiry `now + ttl`. -/
def redisSetex (r : RedisModel) (key : String) (ttl : Nat) (v : String) (now : Nat) :
    Except RedisErr RedisModel :=
  if key ∈ r.failKeys then .error .connectionFailed
  else .ok ⟨(key, v, now + ttl) :: r.entries.filter (fun e => e.1 != key), r.failKeys⟩

/-- The `SessionError` raised by the session manager. -/
inductive SessErr where
  | sessionError
deriving DecidableEq

/-- `SessionManager._make_key`. -/
def make_key (sessionId : String) (step : Option String) : String :=
  match step with
  | some st => "session:" ++ sessionId ++ ":" ++ st
  | none => "session:" ++ sessionId

/-- The key of a session's metadata blob. -/
def metaKey (sessionId : String) : String := make_key sessionId (some "metadata")

/-- Abstracted `datetime.utcnow().isoformat()`. -/
def isoTime (now : Nat) : String := toString now

/-- Python `d.get(k, default)` on a metadata value. -/
def dictGetD (v : PyVal) (k : String) (d : PyVal) : PyVal :=
  match v with
  | .pdict kvs =>
      match kvs.find? (fun kv => kv.1 == k) with
      | some kv => kv.2
      | none => d
  | _ => d

/-- `SessionManager.save_metadata`: `SETEX` of the serialized metadata under
the metadata key with the full TTL; a Redis error is re-raised as
`SessionError`. -/
def save_metadata (expire : Nat) (r : RedisModel) (sessionId : String) (md : PyVal)
    (now : Nat) : Except SessErr RedisModel :=
  match redisSetex r (metaKey sessionId) expire (jsonDumps md) now with
  | .ok r' => .ok r'
  | .error _ => .error .sessionError

/-- `SessionManager.get_metadata`: any failure (Redis error, decode error)
is caught and yields `None`. -/
def get_metadata (r : RedisModel) (sessionId : String) (now : Nat) : Option PyVal :=
  match redisGet r (metaKey sessionId) now with
  | .error _ => none
  | .ok none => none
  | .ok (some s) => jsonLoads s

/-- The metadata mutation inside `save_step_result`: set `current_step` and
`last_accessed`, and append `step` to `steps_completed` if absent. -/
def updateMetaForSave (md : PyVal) (step : String) (now : Nat) : Except PyExn PyVal := do
  let md1 ← pySetItem md "current_step" (.pstr step)
  let md2 ← pySetItem md1 "last_accessed" (.pstr (isoTime now))
  let sc := dictGetD md2 "steps_completed" (.plist [])
  let c ← pyContains sc step
  if c then pure md2
  else
    match md2, dictGetD md2 "steps_completed" (.plist []) with
    | .pdict kvs, .plist xs =>
        pure (.pdict (dictSet kvs "steps_completed" (.plist (xs ++ [.pstr step]))))
    | _, _ => .error .typeError

/-- `SessionManager.save_step_result`: `SETEX` of the serialized payload
under the step key with the full TTL, then a best-effort metadata update
(skipped when the metadata is missing or falsy); any exception inside is
re-raised as `SessionError`. -/
def save_step_result (expire : Nat) (r : RedisModel) (sessionId step : String)
    (data : PyVal) (now : Nat) : Except SessErr RedisModel :=
  match redisSetex r (make_key sessionId (some step)) expire (jsonDumps data) now with
  | .error _ => .error .sessionError
  | .ok r1 =>
    match get_metadata r1 sessionId now with
    | some md =>
      if md.truthy then
        match updateMetaForSave md step now with
        | .error _ => .error .sessionError
        | .ok md' =>
          match save_metadata expire r1 sessionId md' now with
          | .ok r2 => .ok r2
          | .error _ => .error .sessionError
      else .ok r1
    | none => .ok r1

/-- `SessionManager.get_step_result`: reads and decodes the step payload and
then refreshes the metadata's `last_accessed` (a full-TTL `SETEX` of the
metadata key); any exception anywhere in the body is caught and yields
`(None, unchanged store)`. -/
def get_step_result (expire : Nat) (r : RedisModel) (sessionId step : String)
    (now : Nat) : Option PyVal × RedisModel :=
  match redisGet r (make_key sessionId (some step)) now with
  | .error _ => (none, r)
  | .ok none => (none, r)
  | .ok (some s) =>
    match jsonLoads s with
    | none => (none, r)
    | some data =>
      match get_metadata r sessionId now with
      | some md =>
        if md.truthy then
          match pySetItem md "last_accessed" (.pstr (isoTime now)) with
          | .error _ => (none, r)
          | .ok md' =>
            match save_metadata expire r sessionId md' now with
            | .ok r' => (some data, r')
            | .error _ => (none, r)
        else (some data, r)
      | none => (some data, r)

/-- `SessionManager.create_session`: generates a fresh id (`freshId`, the
`uuid.uuid4()` draw), stores the initial metadata under that fresh id, and
returns it; the argument `userId` is only recorded in the metadata. -/
def create_session (expire : Nat) (r : RedisModel) (userId : Option String)
    (freshId : String) (now : Nat) : Except SessErr (String × RedisModel) :=
  let md : PyVal := .pdict
    [("session_id", .pstr freshId),
     ("user_id", match userId with | some u => .pstr u | none => .pnone),
     ("created_at", .pstr (isoTime now)),
     ("last_accessed", .pstr (isoTime now)),
     ("current_step", .pnone),
     ("steps_completed", .plist [])]
  match save_metadata expire r freshId md now with
  | .ok r' => .ok (freshId, r')
  | .error e => .error e

/-! ### The requirement stage dispatch (`analyze_requirement` in
`app/api/generate.py`), session handling only

The endpoint draws `freshId1 = str(uuid.uuid4())` when no session id is
supplied and calls `create_session(session_id)` — whose parameter is
`user_id` and which draws its own fresh id `freshId2` — then, after a
successful agent call producing `result`, saves the step under the
dispatched id. -/

/-- The session-handling path of `analyze_requirement` for a successful
agent call. -/
def analyze_requirement_session (expire : Nat) (r : RedisModel)
    (sessionIdOpt : Option String) (freshId1 freshId2 : String)
    (result : PyVal) (now : Nat) : Except SessErr (String × RedisModel) := do
  let (sessionId, r1) ←
    match sessionIdOpt with
    | none => do
        let (_createdId, r') ← create_session expire r (some freshId1) freshId2 now
        pure (freshId1, r')
    | some s =>
        if s = "" then do
          let (_createdId, r') ← create_session expire r (some freshId1) freshId2 now
          pure (freshId1, r')
        else pure (s, r)
  let r2 ← save_step_result expire r1 sessionId "requirement_analysis" result now
  pure (sessionId, r2)

/-! ### Streaming delivery (`BaseAgent.generate_streaming`) -/

/-- The events emitted over the duplex channel for one streamed invocation. -/
inductive SEvent where
  | chunkEv (text : String)
  | doneEv (payload : PyVal)
  | errorEv (msg : String)

/-- The accumulate-and-forward loop of `generate_streaming`: each received
fragment is appended to `full_response` and emitted as a chunk event; when
the upstream stream ends, the accumulated text is parsed and a single
terminal event is emitted. -/
def streamLoop (parse : String → Except PyExn PyVal) :
    List String → String → List SEvent
  | [], acc =>
    match parse acc with
    | .ok p => [SEvent.doneEv p]
    | .error _ => [SEvent.errorEv "Failed to parse response"]
  | c :: rest, acc => SEvent.chunkEv c :: streamLoop parse rest (acc ++ c)

/-- `BaseAgent.generate_streaming` on a successful upstream stream
delivering `chunks`. -/
def generate_streaming (parse : String → Except PyExn PyVal)
    (chunks : List String) : List SEvent :=
  streamLoop parse chunks ""

/-- The texts of the chunk events, in emission order. -/
def chunkTexts : List SEvent → List String
  | [] => []
  | SEvent.chunkEv t :: rest => t :: chunkTexts rest
  | _ :: rest => chunkTexts rest

/-- Concatenation of a list of strings. -/
def concatAll : List String → String
  | [] => ""
  | s :: rest => s ++ concatAll rest

/-! ### The execution recorder (`BaseAgent._save_execution_record` and the
non-streaming `BaseAgent.generate`) -/

/-- The fields of an execution record that the recorder claims concern. -/
structure ExecRecord where
  status : String
  errorMessage : Option String
  outputData : Option PyVal

/-- `BaseAgent._save_execution_record`: the database write is abstracted as
`persist`; any exception it raises is caught, logged and discarded. -/
def save_execution_record (persist : ExecRecord → Except String Unit)
    (rec : ExecRecord) : Except String Unit :=
  match persist rec with
  | .ok _ => .ok ()
  | .error _ => .ok ()

/-- The error raised to the caller of a non-streaming `generate`. -/
inductive GenError where
  | llmFailed (e : TerminalError)
  | parseFailed (e : PyExn)
  | persistFailed (msg : String)

/-- The non-streaming `BaseAgent.generate`: call, parse, record, return; on
any failure the record is written with status `failed` and the original
error is re-raised. A `persistFailed` outcome would occur only if the
record write could raise. -/
def generate (persist : ExecRecord → Except String Unit)
    (llm : Except TerminalError String)
    (parse : String → Except PyExn PyVal) : Except GenError PyVal :=
  match llm with
  | .ok response =>
    match parse response with
    | .ok parsed =>
      match save_execution_record persist ⟨"completed", none, some parsed⟩ with
      | .ok _ => .ok parsed
      | .error e => .error (.persistFailed e)
    | .error pe =>
      match save_execution_record persist ⟨"failed", some "parse error", none⟩ with
      | .ok _ => .error (.parseFailed pe)
      | .error e => .error (.persistFailed e)
  | .error te =>
    match save_execution_record persist ⟨"failed", some te.message, none⟩ with
    | .ok _ => .error (.llmFailed te)
    | .error e => .error (.persistFailed e)

/-! ### Spec-side trace observations -/

/-- The claimed per-phase trace: `maxRetries` calls with sleeps of
`2 ^ attempt` seconds between consecutive attempts. -/
def phaseTrace (model : String) (maxRetries : Nat) : List TraceEv :=
  (List.range maxRetries).flatMap (fun k =>
    TraceEv.call model :: (if k + 1 < maxRetries then [TraceEv.sleep (2 ^ k)] else []))

/-- The tail of `phaseTrace` starting at a given attempt. -/
def phaseTraceFrom (model : String) (maxRetries : Nat) : Nat → Nat → List TraceEv
  | _attempt, 0 => []
  | attempt, r + 1 =>
      TraceEv.call model ::
        ((if attempt + 1 < maxRetries then [TraceEv.sleep (2 ^ attempt)] else []) ++
          phaseTraceFrom model maxRetries (attempt + 1) r)

/-- Total seconds slept in a trace. -/
def sleepTotal : List TraceEv → Nat
  | [] => 0
  | TraceEv.sleep s :: rest => s + sleepTotal rest
  | _ :: rest => sleepTotal rest

/-- Number of provider calls in a trace. -/
def callCount : List TraceEv → Nat
  | [] => 0
  | TraceEv.call _ :: rest => 1 + callCount rest
  | _ :: rest => callCount rest

/-- Number of fallback switches in a trace. -/
def switchCount : List TraceEv → Nat
  | [] => 0
  | TraceEv.switchModel _ :: rest => 1 + switchCount rest
  | _ :: rest => switchCount rest

lemma phaseTraceFrom_eq_range' (model : String) (maxRetries : Nat) :
    ∀ r attempt, phaseTraceFrom model maxRetries attempt r =
      (List.range' attempt r).flatMap (fun k =>
        TraceEv.call model :: (if k + 1 < maxRetries then [TraceEv.sleep (2 ^ k)] else [])) := by
  intro r
  induction r with
  | zero => intro attempt; rfl
  | succ r ih =>
    intro attempt
    rw [List.range'_succ, List.flatMap_cons, ← ih (attempt + 1)]
    rfl

lemma phaseTrace_eq_from (model : String) (maxRetries : Nat) :
    phaseTrace model maxRetries = phaseTraceFrom model maxRetries 0 maxRetries := by
  rw [phaseTrace, phaseTraceFrom_eq_range', List.range_eq_range']

/-- Final model of the executor loop: every exit restores the entry model. -/
lemma retryGo_model_eq (oracle : Nat → String → CallOutcome) (maxRetries : Nat)
    (fallbackOpt : Option String) :
    ∀ fuel remaining attempt callIdx m,
      (retryGo oracle maxRetries fallbackOpt fuel m m remaining attempt callIdx).model = m := by
  intro fuel
  induction fuel with
  | zero => intro remaining attempt callIdx m; rfl
  | succ fuel ih =>
    intro remaining attempt callIdx m
    cases remaining with
    | zero => rfl
    | succ remaining' =>
      unfold retryGo
      cases h : oracle callIdx m with
      | success t => rfl
      | timeoutErr =>
        simp only
        split
        · exact ih remaining' (attempt + 1) (callIdx + 1) m
        · cases fallbackOpt with
          | none => rfl
          | some fb =>
            simp only
            split
            · cases (retryGo oracle maxRetries (some fb) fuel fb fb maxRetries 0 (callIdx + 1)).res
              all_goals rfl
            · rfl
      | apiErr msg =>
        simp only
        split
        · exact ih remaining' (attempt + 1) (callIdx + 1) m
        · cases fallbackOpt with
          | none => rfl
          | some fb =>
            simp only
            split
            · cases (retryGo oracle maxRetries (some fb) fuel fb fb maxRetries 0 (callIdx + 1)).res
              all_goals rfl
            · rfl
      | otherErr msg =>
        simp only
        split
        · exact ih remaining' (attempt + 1) (callIdx + 1) m
        · cases fallbackOpt with
          | none => rfl
          | some fb =>
            simp only
            split
            · cases (retryGo oracle maxRetries (some fb) fuel fb fb maxRetries 0 (callIdx + 1)).res
              all_goals rfl
            · rfl

/-- C3: after any invocation of the retry executor — success, terminal
failure, fallback success or fallback exhaustion — the agent's
`self.model_name` equals the originally configured model. -/
theorem fallback_model_restored (oracle : Nat → String → CallOutcome)
    (maxRetries : Nat) (fallbackOpt : Option String) (model : String) :
    (call_llm_with_retry oracle maxRetries fallbackOpt model).model = model :=
  retryGo_model_eq oracle maxRetries fallbackOpt _ _ _ _ model

/-- Executor phase with the fallback branch not taken: on an always-failing
oracle the loop makes exactly the remaining calls, sleeping `2 ^ attempt`
between consecutive calls, and raises the class-appropriate terminal error
built from the last error. -/
lemma retryGo_phase_nofb (oracle : Nat → String → CallOutcome) (maxRetries : Nat)
    (fallbackOpt : Option String) (orig model : String)
    (hfail : ∀ i s, (oracle i s).isFail = true)
    (hg : fallbackGuard fallbackOpt model = false) :
    ∀ remaining attempt callIdx fuel,
      attempt + remaining = maxRetries → 1 ≤ remaining → remaining ≤ fuel →
      retryGo oracle maxRetries fallbackOpt fuel orig model remaining attempt callIdx =
        ⟨.error (terminalOf (oracle (callIdx + remaining - 1) model) maxRetries orig),
          model, callIdx + remaining, phaseTraceFrom model maxRetries attempt remaining⟩ := by
  intro remaining
  induction remaining with
  | zero => intro attempt callIdx fuel _ h1 _; omega
  | succ r ih =>
    intro attempt callIdx fuel hsum _ hfuel
    obtain ⟨f, rfl⟩ : ∃ f, fuel = f + 1 := ⟨fuel - 1, by omega⟩
    unfold retryGo
    have hor := hfail callIdx model
    cases r with
    | zero =>
      have hlast : ¬ attempt < maxRetries - 1 := by omega
      have e2 : ¬ (attempt + 1 < maxRetries) := by omega
      cases h : oracle callIdx model
      case success t => rw [h] at hor; simp [CallOutcome.isFail] at hor
      all_goals
        simp only [if_neg hlast]
        cases hfb : fallbackOpt with
        | none =>
          have e1 : callIdx + (0 + 1) - 1 = callIdx := by omega
          simp [phaseTraceFrom, e1, e2, h]
        | some fb =>
          have hgf : (fb != "" && model != fb) = false := by
            rw [hfb] at hg; simpa [fallbackGuard] using hg
          have e1 : callIdx + (0 + 1) - 1 = callIdx := by omega
          simp [phaseTraceFrom, e1, e2, h, hgf]
    | succ r' =>
      have hcont : attempt < maxRetries - 1 := by omega
      have ihr := ih (attempt + 1) (callIdx + 1) f (by omega) (by omega) (by omega)
      have e3 : callIdx + 1 + (r' + 1) - 1 = callIdx + (r' + 1 + 1) - 1 := by omega
      have e4 : callIdx + 1 + (r' + 1) = callIdx + (r' + 1 + 1) := by omega
      have e5 : attempt + 1 < maxRetries := by omega
      cases h : oracle callIdx model
      case success t => rw [h] at hor; simp [CallOutcome.isFail] at hor
      all_goals
        simp only [if_pos hcont, ihr, e3, e4]
        simp [phaseTraceFrom, e5]

/-- The wrapping the executor applies around the fallback phase result:
on success the original model is restored; on failure a single
`bothFailed` error carrying both error summaries is raised. -/
def fbWrap (orig fb primErr : String) (preTrace : List TraceEv) (inner : RunRes) : RunRes :=
  match inner.res with
  | .ok r => ⟨.ok r, orig, inner.callsEnd, preTrace ++ TraceEv.switchModel fb :: inner.trace⟩
  | .error fe =>
      ⟨.error (.bothFailed orig fb primErr fe.message), orig, inner.callsEnd,
        preTrace ++ TraceEv.switchModel fb :: inner.trace⟩

lemma fbWrap_cons2 (orig fb primErr : String) (preTrace : List TraceEv) (inner : RunRes)
    (a b : TraceEv) :
    (⟨(fbWrap orig fb primErr preTrace inner).res, (fbWrap orig fb primErr preTrace inner).model,
      (fbWrap orig fb primErr preTrace inner).callsEnd,
      a :: b :: (fbWrap orig fb primErr preTrace inner).trace⟩ : RunRes) =
      fbWrap orig fb primErr (a :: b :: preTrace) inner := by
  unfold fbWrap
  cases inner.res <;> rfl

/-- Executor phase with the fallback guard true: on an always-failing oracle
the primary phase makes exactly the remaining calls and then re-enters the
executor once on the fallback model with a fresh attempt budget. -/
lemma retryGo_phase_fb (oracle : Nat → String → CallOutcome) (maxRetries : Nat)
    (fallbackOpt : Option String) (orig model fb : String)
    (hfail : ∀ i s, (oracle i s).isFail = true)
    (hfb : fallbackOpt = some fb) (hg : (fb != "" && model != fb) = true) :
    ∀ remaining attempt callIdx fuel,
      attempt + remaining = maxRetries → 1 ≤ remaining → remaining + 1 ≤ fuel →
      retryGo oracle maxRetries fallbackOpt fuel orig model remaining attempt callIdx =
        fbWrap orig fb (errStr (oracle (callIdx + remaining - 1) model))
          (phaseTraceFrom model maxRetries attempt remaining)
          (retryGo oracle maxRetries fallbackOpt (fuel - remaining) fb fb
            maxRetries 0 (callIdx + remaining)) := by
  subst hfb
  intro remaining
  induction remaining with
  | zero => intro attempt callIdx fuel _ h1 _; omega
  | succ r ih =>
    intro attempt callIdx fuel hsum _ hfuel
    obtain ⟨f, rfl⟩ : ∃ f, fuel = f + 1 := ⟨fuel - 1, by omega⟩
    have hor := hfail callIdx model
    cases r with
    | zero =>
      have hlast : ¬ attempt < maxRetries - 1 := by omega
      have e2 : ¬ (attempt + 1 < maxRetries) := by omega
      have e1 : callIdx + (0 + 1) - 1 = callIdx := by omega
      have ef : f + 1 - (0 + 1) = f := by omega
      conv_lhs => rw [retryGo]
      cases h : oracle callIdx model
      case success t => rw [h] at hor; simp [CallOutcome.isFail] at hor
      all_goals
        simp only [h, if_neg hlast, hg, if_true]
        simp only [fbWrap, e1, ef, h, Nat.zero_add]
        cases hres : (retryGo oracle maxRetries (some fb) f fb fb maxRetries 0 (callIdx + 1)).res
        all_goals simp [hres, phaseTraceFrom, if_neg e2]
    | succ r' =>
      have hcont : attempt < maxRetries - 1 := by omega
      have ihr := ih (attempt + 1) (callIdx + 1) f (by omega) (by omega) (by omega)
      have e3 : callIdx + 1 + (r' + 1) - 1 = callIdx + (r' + 1 + 1) - 1 := by omega
      have e4 : callIdx + 1 + (r' + 1) = callIdx + (r' + 1 + 1) := by omega
      have e6 : f - (r' + 1) = f + 1 - (r' + 1 + 1) := by omega
      have e5 : attempt + 1 < maxRetries := by omega
      conv_lhs => rw [retryGo]
      cases h : oracle callIdx model
      case success t => rw [h] at hor; simp [CallOutcome.isFail] at hor
      all_goals
        simp only [h, if_pos hcont, ihr]
        rw [fbWrap_cons2]
        simp only [e3, e4, e6]
        simp [phaseTraceFrom, e5]

lemma fbWrap_trace (orig fb primErr : String) (preTrace : List TraceEv) (inner : RunRes) :
    (fbWrap orig fb primErr preTrace inner).trace =
      preTrace ++ TraceEv.switchModel fb :: inner.trace := by
  unfold fbWrap
  cases inner.res <;> rfl

lemma fbWrap_callsEnd (orig fb primErr : String) (preTrace : List TraceEv) (inner : RunRes) :
    (fbWrap orig fb primErr preTrace inner).callsEnd = inner.callsEnd := by
  unfold fbWrap
  cases inner.res <;> rfl

lemma sleepTotal_phaseFrom (model : String) (maxRetries : Nat) :
    ∀ r a, a + r = maxRetries →
      sleepTotal (phaseTraceFrom model maxRetries a r) =
        2 ^ (maxRetries - 1) - 2 ^ a := by
  intro r
  induction r with
  | zero =>
    intro a ha
    have h1 : 2 ^ (maxRetries - 1) ≤ 2 ^ a := by
      apply Nat.pow_le_pow_right (by omega)
      omega
    simp [phaseTraceFrom, sleepTotal]
    omega
  | succ r ih =>
    intro a ha
    by_cases h5 : a + 1 < maxRetries
    · have h1 : (2 : Nat) ^ (a + 1) = 2 ^ a * 2 := by rw [pow_succ]
      have h2 : (2 : Nat) ^ (a + 1) ≤ 2 ^ (maxRetries - 1) := by
        apply Nat.pow_le_pow_right (by omega)
        omega
      have ihr := ih (a + 1) (by omega)
      simp [phaseTraceFrom, sleepTotal, h5, ihr]
      omega
    · have ha' : a = maxRetries - 1 := by omega
      have hr : r = 0 := by omega
      subst hr
      have h1 : (2 : Nat) ^ (a + 1) = 2 ^ a * 2 := by rw [pow_succ]
      have h2 : (2 : Nat) ^ (maxRetries - 1) = 2 ^ a := by rw [ha']
      simp [phaseTraceFrom, sleepTotal, h5]
      omega

lemma callCount_phaseFrom (model : String) (maxRetries : Nat) :
    ∀ r a, callCount (phaseTraceFrom model maxRetries a r) = r := by
  intro r
  induction r with
  | zero => intro a; rfl
  | succ r ih =>
    intro a
    by_cases h5 : a + 1 < maxRetries <;>
      simp [phaseTraceFrom, callCount, h5, ih (a + 1)] <;> omega

lemma switchCount_phaseFrom (model : String) (maxRetries : Nat) :
    ∀ r a, switchCount (phaseTraceFrom model maxRetries a r) = 0 := by
  intro r
  induction r with
  | zero => intro a; rfl
  | succ r ih =>
    intro a
    by_cases h5 : a + 1 < maxRetries
    · simp [phaseTraceFrom, switchCount, h5, ih (a + 1)]
    · simp [phaseTraceFrom, switchCount, h5, ih (a + 1)]

lemma switchCount_append (t1 t2 : List TraceEv) :
    switchCount (t1 ++ t2) = switchCount t1 + switchCount t2 := by
  induction t1 with
  | nil => simp [switchCount]
  | cons e rest ih =>
    cases e <;> simp [switchCount, ih]
    omega

/-- C2: on an always-failing provider call with attempt budget
`maxRetries ≥ 1`, the executor makes exactly `maxRetries` attempts before
either switching to the fallback model or raising a terminal error, sleeps
`2 ^ attempt` seconds between consecutive attempts, and the total backoff
slept in the phase is `1 + 2 + ... + 2 ^ (maxRetries - 2) = 2 ^ (maxRetries - 1) - 1`
seconds. -/
theorem retry_termination (oracle : Nat → String → CallOutcome) (maxRetries : Nat)
    (model : String) (fallbackOpt : Option String)
    (hN : 1 ≤ maxRetries) (hfail : ∀ i s, (oracle i s).isFail = true) :
    (fallbackGuard fallbackOpt model = false →
      (call_llm_with_retry oracle maxRetries fallbackOpt model).trace =
          phaseTrace model maxRetries ∧
        (call_llm_with_retry oracle maxRetries fallbackOpt model).callsEnd = maxRetries ∧
        ∃ e, (call_llm_with_retry oracle maxRetries fallbackOpt model).res = .error e) ∧
    (∀ fb, fallbackOpt = some fb → fallbackGuard fallbackOpt model = true →
      ∃ t, (call_llm_with_retry oracle maxRetries fallbackOpt model).trace =
        phaseTrace model maxRetries ++ TraceEv.switchModel fb :: t) ∧
    callCount (phaseTrace model maxRetries) = maxRetries ∧
    sleepTotal (phaseTrace model maxRetries) = 2 ^ (maxRetries - 1) - 1 := by
  refine ⟨?_, ?_, ?_, ?_⟩
  · intro hg
    have key := retryGo_phase_nofb oracle maxRetries fallbackOpt model model hfail hg
      maxRetries 0 0 (2 * maxRetries + 2) (by omega) hN (by omega)
    unfold call_llm_with_retry
    rw [key, phaseTrace_eq_from]
    refine ⟨rfl, ?_, _, rfl⟩
    show 0 + maxRetries = maxRetries
    omega
  · intro fb hfb hg
    have hg' : (fb != "" && model != fb) = true := by
      rw [hfb] at hg
      simpa [fallbackGuard] using hg
    have key := retryGo_phase_fb oracle maxRetries fallbackOpt model model fb hfail hfb hg'
      maxRetries 0 0 (2 * maxRetries + 2) (by omega) hN (by omega)
    unfold call_llm_with_retry
    rw [key, fbWrap_trace, phaseTrace_eq_from]
    exact ⟨_, rfl⟩
  · rw [phaseTrace_eq_from]
    exact callCount_phaseFrom model maxRetries maxRetries 0
  · rw [phaseTrace_eq_from, sleepTotal_phaseFrom model maxRetries maxRetries 0 (by omega)]
    norm_num

/-- Witness for C2 at attempt budget 3, a provider timing out on every
attempt, and no fallback: the trace is call, sleep 1, call, sleep 2, call. -/
theorem retry_termination_witness :
    (call_llm_with_retry (fun _ _ => CallOutcome.timeoutErr) 3 none "gpt-4").trace =
        phaseTrace "gpt-4" 3 ∧
      (call_llm_with_retry (fun _ _ => CallOutcome.timeoutErr) 3 none "gpt-4").callsEnd = 3 ∧
      ∃ e, (call_llm_with_retry (fun _ _ => CallOutcome.timeoutErr) 3 none "gpt-4").res =
        .error e :=
  (retry_termination (fun _ _ => CallOutcome.timeoutErr) 3 "gpt-4" none (by decide)
    (fun _ _ => rfl)).1 rfl

/-- C4: with a configured fallback model distinct from the primary and an
always-failing provider, the executor raises a single error carrying both
the primary error summary and the fallback error summary, makes exactly
`2 * maxRetries` call attempts, and switches models exactly once — the
fallback does not cascade further. -/
theorem fallback_exhaustion (oracle : Nat → String → CallOutcome) (maxRetries : Nat)
    (model fb : String) (hN : 1 ≤ maxRetries)
    (hfail : ∀ i s, (oracle i s).isFail = true)
    (hfb1 : fb ≠ "") (hfb2 : model ≠ fb) :
    (call_llm_with_retry oracle maxRetries (some fb) model).res =
        .error (.bothFailed model fb (errStr (oracle (maxRetries - 1) model))
          ((terminalOf (oracle (2 * maxRetries - 1) fb) maxRetries fb).message)) ∧
      (call_llm_with_retry oracle maxRetries (some fb) model).callsEnd = 2 * maxRetries ∧
      (call_llm_with_retry oracle maxRetries (some fb) model).trace =
        phaseTrace model maxRetries ++
          TraceEv.switchModel fb :: phaseTrace fb maxRetries ∧
      switchCount (call_llm_with_retry oracle maxRetries (some fb) model).trace = 1 := by
  have hg' : (fb != "" && model != fb) = true := by
    simp [hfb1, hfb2]
  have hginner : fallbackGuard (some fb) fb = false := by
    simp [fallbackGuard]
  have key := retryGo_phase_fb oracle maxRetries (some fb) model model fb hfail rfl hg'
    maxRetries 0 0 (2 * maxRetries + 2) (by omega) hN (by omega)
  have keyInner := retryGo_phase_nofb oracle maxRetries (some fb) fb fb hfail hginner
    maxRetries 0 (0 + maxRetries) (2 * maxRetries + 2 - maxRetries) (by omega) hN (by omega)
  unfold call_llm_with_retry
  rw [key, keyInner]
  have e1 : 0 + maxRetries - 1 = maxRetries - 1 := by omega
  have e2 : 0 + maxRetries + maxRetries - 1 = 2 * maxRetries - 1 := by omega
  have e3 : 0 + maxRetries + maxRetries = 2 * maxRetries := by omega
  refine ⟨?_, ?_, ?_, ?_⟩
  · simp only [fbWrap, e1, e2]
  · rw [fbWrap_callsEnd]
    simpa using e3
  · rw [fbWrap_trace, phaseTrace_eq_from, phaseTrace_eq_from]
  · rw [fbWrap_trace, switchCount_append]
    simp [switchCount, switchCount_phaseFrom]

/-- Witness for C4 at attempt budget 2, primary "A", fallback "B", and a
provider failing every call with an API error: a single `bothFailed` error
carrying both summaries, four calls, one switch. -/
theorem fallback_exhaustion_witness :
    (call_llm_with_retry (fun _ _ => CallOutcome.apiErr "boom") 2 (some "B") "A").res =
        .error (.bothFailed "A" "B" "boom" "OpenAI API call failed after 2 attempts: boom") ∧
      (call_llm_with_retry (fun _ _ => CallOutcome.apiErr "boom") 2 (some "B") "A").callsEnd = 4 ∧
      switchCount (call_llm_with_retry (fun _ _ => CallOutcome.apiErr "boom") 2 (some "B") "A").trace = 1 := by
  have h := fallback_exhaustion (fun _ _ => CallOutcome.apiErr "boom") 2 "A" "B"
    (by decide) (fun _ _ => rfl) (by decide) (by decide)
  exact ⟨h.1, h.2.1, h.2.2.2⟩

lemma streamLoop_spec (parse : String → Except PyExn PyVal) :
    ∀ chunks acc, streamLoop parse chunks acc =
      chunks.map SEvent.chunkEv ++
        (match parse (acc ++ concatAll chunks) with
         | .ok p => [SEvent.doneEv p]
         | .error _ => [SEvent.errorEv "Failed to parse response"]) := by
  intro chunks
  induction chunks with
  | nil =>
    intro acc
    simp [streamLoop, concatAll]
  | cons c rest ih =>
    intro acc
    simp only [streamLoop, ih (acc ++ c), concatAll, List.map_cons, List.cons_append,
      String.append_assoc]

/-- C6: for a successful streamed invocation the concatenation of the texts
of the emitted chunk events equals exactly the accumulated text that
`parse_response` is applied to in order to produce the done payload. -/
theorem streaming_concat_invariant (parse : String → Except PyExn PyVal)
    (chunks : List String) (p : PyVal)
    (h : parse (concatAll chunks) = .ok p) :
    generate_streaming parse chunks = chunks.map SEvent.chunkEv ++ [SEvent.doneEv p] ∧
      chunkTexts (generate_streaming parse chunks) = chunks ∧
      parse (concatAll (chunkTexts (generate_streaming parse chunks))) = .ok p := by
  have hrun : generate_streaming parse chunks =
      chunks.map SEvent.chunkEv ++ [SEvent.doneEv p] := by
    unfold generate_streaming
    rw [streamLoop_spec]
    have : ("" : String) ++ concatAll chunks = concatAll chunks := by
      simp
    rw [this, h]
  have htexts : ∀ (l : List String), chunkTexts (l.map SEvent.chunkEv ++ [SEvent.doneEv p]) = l := by
    intro l
    induction l with
    | nil => rfl
    | cons c rest ih =>
      simp only [List.map_cons, List.cons_append, chunkTexts]
      show c :: chunkTexts (List.map SEvent.chunkEv rest ++ [SEvent.doneEv p]) = c :: rest
      rw [ih]
  refine ⟨hrun, ?_, ?_⟩
  · rw [hrun, htexts]
  · rw [hrun, htexts]
    exact h

/-- Witness for C6: two chunks forming an empty JSON object; the done
payload is the fully defaulted analysis and the chunk texts concatenate to
the parsed text. -/
theorem streaming_concat_invariant_witness :
    generate_streaming (parse_response jsonLoads) ["\x7b", "\x7d"] =
      [SEvent.chunkEv "\x7b", SEvent.chunkEv "\x7d",
        SEvent.doneEv (PyVal.pdict
          [("function_points", .plist []), ("business_rules", .plist []),
           ("data_models", .plist []), ("api_definitions", .plist []),
           ("test_focus", .plist []), ("risk_points", .plist [])])] :=
  (streaming_concat_invariant (parse_response jsonLoads) ["\x7b", "\x7d"] _ rfl).1

/-- C8: the execution-record write never raises — any persistence failure is
swallowed — and the primary outcome of a stage invocation (its parsed
result, parse error, or provider error) is exactly what `generate` returns,
independent of the persistence function. -/
theorem execution_record_isolated (persist : ExecRecord → Except String Unit)
    (llm : Except TerminalError String) (parse : String → Except PyExn PyVal) :
    (∀ rec, save_execution_record persist rec = .ok ()) ∧
      generate persist llm parse =
        (match llm with
         | .ok response =>
            (match parse response with
             | .ok parsed => .ok parsed
             | .error pe => .error (.parseFailed pe))
         | .error te => .error (.llmFailed te)) := by
  have hsave : ∀ rec, save_execution_record persist rec = .ok () := by
    intro rec
    unfold save_execution_record
    cases persist rec <;> rfl
  refine ⟨hsave, ?_⟩
  unfold generate
  cases llm with
  | error te => simp only [hsave]
  | ok response =>
    cases h : parse response with
    | ok parsed => simp only [h, hsave]
    | error pe => simp only [h, hsave]

set_option maxRecDepth 4000 in
/-- C1 (divergence witness): dispatching the requirement stage with a
previously-unseen session id "s1" succeeds and stores the step result, yet
no metadata is created under "s1", so `get_metadata` still returns `None`
afterwards; and on the no-session-id path the endpoint returns the id "u1"
it drew while `create_session` — whose parameter is `user_id`, not the key —
stores the metadata under its own fresh draw "u2", so `get_metadata` on the
returned id again yields `None`. -/
theorem auto_creation_divergence :
    (analyze_requirement_session 3600 ⟨[], []⟩ (some "s1") "u1" "u2"
        (PyVal.pdict [("x", PyVal.pint 1)]) 0 =
      .ok ("s1", ⟨[("session:s1:requirement_analysis",
        jsonDumps (PyVal.pdict [("x", PyVal.pint 1)]), 3600)], []⟩)) ∧
      get_metadata ⟨[("session:s1:requirement_analysis",
        jsonDumps (PyVal.pdict [("x", PyVal.pint 1)]), 3600)], []⟩ "s1" 0 = none ∧
      (match analyze_requirement_session 3600 ⟨[], []⟩ none "u1" "u2" (PyVal.pdict []) 0 with
       | .ok (sessionId, r') =>
          sessionId = "u1" ∧ get_metadata r' "u1" 0 = none ∧
            (get_metadata r' "u2" 0).isSome = true
       | .error _ => False) :=
  ⟨rfl, rfl, rfl, rfl, rfl⟩

lemma find_filter_of_imp {α : Type} (p q : α → Bool) (l : List α)
    (h : ∀ e, p e = true → q e = true) :
    (l.filter q).find? p = l.find? p := by
  induction l with
  | nil => rfl
  | cons e rest ih =>
    by_cases hq : q e = true
    · by_cases hp : p e = true
      · simp [List.filter_cons, hq, List.find?_cons, hp]
      · simp only [List.filter_cons, hq, if_true, List.find?_cons]
        rw [Bool.not_eq_true] at hp
        simp [hp, ih]
    · have hp : p e = false := by
        cases hpe : p e
        · rfl
        · exact absurd (h e hpe) hq
      simp only [List.filter_cons]
      rw [Bool.not_eq_true] at hq
      simp [hq, List.find?_cons, hp, ih]

lemma redisLookup_setex_eq (r : RedisModel) (k : String) (ttl : Nat) (v : String)
    (now : Nat) (r' : RedisModel) (h : redisSetex r k ttl v now = .ok r') :
    redisLookup r' k = some (v, now + ttl) := by
  unfold redisSetex at h
  by_cases hk : k ∈ r.failKeys
  · simp [hk] at h
  · simp only [hk, if_false] at h
    cases h
    simp [redisLookup, List.find?_cons]

lemma redisLookup_setex_ne (r : RedisModel) (k k' : String) (ttl : Nat) (v : String)
    (now : Nat) (r' : RedisModel) (h : redisSetex r k' ttl v now = .ok r')
    (hne : k ≠ k') :
    redisLookup r' k = redisLookup r k := by
  unfold redisSetex at h
  by_cases hk : k' ∈ r.failKeys
  · simp [hk] at h
  · simp only [hk, if_false] at h
    cases h
    have hbe : (k' == k) = false := by
      simp [hne.symm]
    unfold redisLookup
    simp only [List.find?_cons, hbe]
    rw [find_filter_of_imp]
    intro e he
    have : e.1 = k := by simpa using he
    simp [this, hne]

lemma make_key_ne_meta (sessionId step : String) (h : step ≠ "metadata") :
    make_key sessionId (some step) ≠ metaKey sessionId := by
  intro heq
  apply h
  unfold metaKey make_key at heq
  have hdata := congrArg String.data heq
  simp only [String.data_append] at hdata
  have := List.append_cancel_left hdata
  exact String.ext this

lemma get_step_preserves (expire : Nat) (r : RedisModel) (sessionId step : String)
    (now : Nat) (hstep : step ≠ "metadata") :
    redisLookup (get_step_result expire r sessionId step now).2 (make_key sessionId (some step)) =
      redisLookup r (make_key sessionId (some step)) := by
  unfold get_step_result
  split
  next => rfl
  next => rfl
  next s heq =>
    split
    next => rfl
    next data hdata =>
      split
      next md hmd =>
        split
        next h4 =>
          split
          next => rfl
          next md' hset =>
            split
            next r' hsave =>
              unfold save_metadata at hsave
              cases h7 : redisSetex r (metaKey sessionId) expire (jsonDumps md') now with
              | error e => rw [h7] at hsave; cases hsave
              | ok r'' =>
                rw [h7] at hsave
                cases hsave
                exact redisLookup_setex_ne r _ _ _ _ _ _ h7
                  (make_key_ne_meta sessionId step hstep)
            next => rfl
        next h4 => rfl
      next => rfl

/-- Iterated reads of one step. -/
def getIter (expire : Nat) (sessionId step : String) (now : Nat) :
    Nat → RedisModel → RedisModel
  | 0, r => r
  | n + 1, r => getIter expire sessionId step now n
      (get_step_result expire r sessionId step now).2

/-- C7: `save_step_result` always (re)sets the step key's expiry to the full
TTL; `get_step_result`, iterated any number of times, never changes the step
key's own entry; and a read that returns an existing step while session
metadata is present resets the metadata key's expiry to the full TTL. -/
theorem session_ttl_semantics (expire : Nat) (r : RedisModel) (sessionId step : String)
    (data : PyVal) (now : Nat) (hstep : step ≠ "metadata") :
    (∀ r', save_step_result expire r sessionId step data now = .ok r' →
      redisLookup r' (make_key sessionId (some step)) = some (jsonDumps data, now + expire)) ∧
    (∀ n, redisLookup (getIter expire sessionId step now n r) (make_key sessionId (some step)) =
      redisLookup r (make_key sessionId (some step))) ∧
    (∀ d, (get_step_result expire r sessionId step now).1 = some d →
      ∀ md, get_metadata r sessionId now = some md → md.truthy = true →
      ∃ v, redisLookup (get_step_result expire r sessionId step now).2 (metaKey sessionId) =
        some (v, now + expire)) := by
  refine ⟨?_, ?_, ?_⟩
  · intro r' h
    unfold save_step_result at h
    split at h
    next heq => cases h
    next r1 heq =>
      have base := redisLookup_setex_eq r _ _ _ _ r1 heq
      split at h
      next md hmd =>
        split at h
        next htr =>
          split at h
          next => cases h
          next md' hupd =>
            split at h
            next r2 hsave =>
              cases h
              unfold save_metadata at hsave
              cases h7 : redisSetex r1 (metaKey sessionId) expire (jsonDumps md') now with
              | error e => rw [h7] at hsave; cases hsave
              | ok r3 =>
                rw [h7] at hsave
                cases hsave
                rw [redisLookup_setex_ne r1 _ _ _ _ _ _ h7
                  (make_key_ne_meta sessionId step hstep)]
                exact base
            next => cases h
        next htr =>
          cases h
          exact base
      next hmd =>
        cases h
        exact base
  · intro n
    induction n generalizing r with
    | zero => rfl
    | succ n ih =>
      show redisLookup (getIter expire sessionId step now n
          (get_step_result expire r sessionId step now).2) (make_key sessionId (some step)) = _
      rw [ih ((get_step_result expire r sessionId step now).2)]
      exact get_step_preserves expire r sessionId step now hstep
  · intro d hd md hmd htr
    unfold get_step_result at hd ⊢
    split at hd
    next => cases hd
    next => cases hd
    next s heq =>
      split at hd
      next => cases hd
      next dat hdat =>
        rw [hmd] at hd ⊢
        simp only [htr, if_true] at hd ⊢
        split at hd
        next => cases hd
        next md' hupd =>
          split at hd
          next r2 hsave =>
            unfold save_metadata at hsave
            cases h7 : redisSetex r (metaKey sessionId) expire (jsonDumps md') now with
            | error e => rw [h7] at hsave; cases hsave
            | ok r3 =>
              rw [h7] at hsave
              cases hsave
              exact ⟨jsonDumps md', redisLookup_setex_eq r _ _ _ _ _ h7⟩
          next => cases hd

set_option maxRecDepth 4000 in
/-- Witness for C7 on a concrete store holding a step "cases" and truthy
metadata, both with 50 time units left, TTL 100, read/written at time 0. -/
theorem session_ttl_semantics_witness :
    redisLookup
        ⟨[("session:s:metadata",
            "\x7b\"a\": 1, \"current_step\": \"cases\", \"last_accessed\": \"0\", \"steps_completed\": [\"cases\"]\x7d",
            100),
          ("session:s:cases", "\x7b\x7d", 100)], []⟩
        (make_key "s" (some "cases")) = some (jsonDumps (PyVal.pdict []), 0 + 100) ∧
      redisLookup
        (getIter 100 "s" "cases" 0 2
          ⟨[("session:s:cases", "\x7b\x7d", 50), ("session:s:metadata", "\x7b\"a\": 1\x7d", 50)], []⟩)
        (make_key "s" (some "cases")) = some ("\x7b\x7d", 50) ∧
      ∃ v, redisLookup
        (get_step_result 100
          ⟨[("session:s:cases", "\x7b\x7d", 50), ("session:s:metadata", "\x7b\"a\": 1\x7d", 50)], []⟩
          "s" "cases" 0).2 (metaKey "s") = some (v, 0 + 100) := by
  have h := session_ttl_semantics 100
    ⟨[("session:s:cases", "\x7b\x7d", 50), ("session:s:metadata", "\x7b\"a\": 1\x7d", 50)], []⟩
    "s" "cases" (PyVal.pdict []) 0 (by decide)
  refine ⟨?_, ?_, ?_⟩
  · exact h.1
      ⟨[("session:s:metadata",
          "\x7b\"a\": 1, \"current_step\": \"cases\", \"last_accessed\": \"0\", \"steps_completed\": [\"cases\"]\x7d",
          100),
        ("session:s:cases", "\x7b\x7d", 100)], []⟩ rfl
  · exact (h.2.1 2).trans rfl
  · exact h.2.2 (PyVal.pdict []) rfl (PyVal.pdict [("a", PyVal.pint 1)]) rfl rfl

/-- C10: `get_step_result` is total at the public interface — a missing or
expired key, a Redis failure, and stored data that cannot be decoded as
JSON all yield `None` with the store unchanged, the error only being
logged; `save_step_result`, by contrast, raises `SessionError` when the
underlying write fails. -/
theorem get_step_result_total (expire : Nat) (r : RedisModel) (sessionId step : String)
    (now : Nat) :
    (make_key sessionId (some step) ∈ r.failKeys →
      get_step_result expire r sessionId step now = (none, r)) ∧
    (redisGet r (make_key sessionId (some step)) now = .ok none →
      get_step_result expire r sessionId step now = (none, r)) ∧
    (∀ s, redisGet r (make_key sessionId (some step)) now = .ok (some s) →
      jsonLoads s = none →
      get_step_result expire r sessionId step now = (none, r)) ∧
    (make_key sessionId (some step) ∈ r.failKeys →
      ∀ data, save_step_result expire r sessionId step data now = .error .sessionError) := by
  refine ⟨?_, ?_, ?_, ?_⟩
  · intro hfail
    unfold get_step_result
    have : redisGet r (make_key sessionId (some step)) now = .error .connectionFailed := by
      unfold redisGet
      simp [hfail]
    rw [this]
  · intro hmiss
    unfold get_step_result
    rw [hmiss]
  · intro s hs hdec
    unfold get_step_result
    rw [hs]
    simp only [hdec]
  · intro hfail data
    unfold save_step_result
    have : redisSetex r (make_key sessionId (some step)) expire (jsonDumps data) now =
        .error .connectionFailed := by
      unfold redisSetex
      simp [hfail]
    rw [this]

/-- Witness for C10: a faulted step key yields `None` on read and
`SessionError` on write; undecodable stored bytes yield `None`. -/
theorem get_step_result_total_witness :
    get_step_result 100 ⟨[], ["session:s:cases"]⟩ "s" "cases" 0 =
        (none, ⟨[], ["session:s:cases"]⟩) ∧
      get_step_result 100 ⟨[("session:s:cases", "not json", 50)], []⟩ "s" "cases" 0 =
        (none, ⟨[("session:s:cases", "not json", 50)], []⟩) ∧
      save_step_result 100 ⟨[], ["session:s:cases"]⟩ "s" "cases" (PyVal.pdict []) 0 =
        .error .sessionError := by
  refine ⟨?_, ?_, ?_⟩
  · exact (get_step_result_total 100 ⟨[], ["session:s:cases"]⟩ "s" "cases" 0).1 (by decide)
  · exact (get_step_result_total 100 ⟨[("session:s:cases", "not json", 50)], []⟩
      "s" "cases" 0).2.2.1 "not json" rfl rfl
  · exact (get_step_result_total 100 ⟨[], ["session:s:cases"]⟩ "s" "cases" 0).2.2.2
      (by decide) (PyVal.pdict [])

/-! ### Lemmas about the defaulting pass of `parse_response` -/

@[simp] lemma except_bind_ok {ε α β : Type} (a : α) (f : α → Except ε β) :
    (Except.ok a >>= f) = f a := rfl

@[simp] lemma except_bind_err {ε α β : Type} (e : ε) (f : α → Except ε β) :
    ((Except.error e : Except ε α) >>= f) = Except.error e := rfl

lemma pyContains_err (v : PyVal) (f : String) (e : PyExn)
    (h : pyContains v f = .error e) : e = .typeError := by
  cases v <;> simp [pyContains] at h <;> exact h.symm

lemma pySetItem_err (v : PyVal) (k : String) (x : PyVal) (e : PyExn)
    (h : pySetItem v k x = .error e) : e = .typeError := by
  cases v <;> simp [pySetItem] at h <;> exact h.symm

lemma pyGetItem_err (v : PyVal) (k : String) (e : PyExn)
    (h : pyGetItem v k = .error e) : e ≠ .valueError := by
  cases v with
  | pdict kvs =>
    simp only [pyGetItem] at h
    split at h
    next => cases h
    next => cases h; decide
  | pnone => cases h; decide
  | pbool b => cases h; decide
  | pint n => cases h; decide
  | pstr s => cases h; decide
  | plist xs => cases h; decide

lemma pyIter_err (v : PyVal) (e : PyExn) (h : pyIter v = .error e) : e = .typeError := by
  cases v <;> simp [pyIter] at h <;> exact h.symm

lemma ensureKey_err (cur : PyVal) (kd : String × PyVal) (e : PyExn)
    (h : ensureKey cur kd = .error e) : e = .typeError := by
  unfold ensureKey at h
  cases hc : pyContains cur kd.1 with
  | error e' =>
    rw [hc] at h
    simp at h
    rw [← h]
    exact pyContains_err cur kd.1 e' hc
  | ok b =>
    rw [hc] at h
    simp at h
    cases b with
    | true => exact Except.noConfusion h
    | false =>
      simp at h
      exact pySetItem_err cur kd.1 kd.2 e h

lemma foldlM_ensure_err :
    ∀ (l : List (String × PyVal)) (cur : PyVal) (e : PyExn),
      List.foldlM ensureKey cur l = .error e → e = .typeError := by
  intro l
  induction l with
  | nil => intro cur e h; exact Except.noConfusion h
  | cons kd rest ih =>
    intro cur e h
    rw [List.foldlM_cons] at h
    cases hk : ensureKey cur kd with
    | error e' =>
      rw [hk] at h
      simp at h
      rw [← h]
      exact ensureKey_err cur kd e' hk
    | ok b =>
      rw [hk] at h
      simp at h
      exact ih b e h

lemma mapM_fixEntry_err (defaults : List (String × PyVal)) :
    ∀ (xs : List PyVal) (e : PyExn),
      xs.mapM (fixEntry defaults) = .error e → e = .typeError := by
  intro xs
  induction xs with
  | nil => intro e h; exact Except.noConfusion h
  | cons x rest ih =>
    intro e h
    rw [List.mapM_cons] at h
    cases hx : fixEntry defaults x with
    | error e' =>
      rw [hx] at h
      simp at h
      rw [← h]
      exact foldlM_ensure_err defaults x e' hx
    | ok b =>
      rw [hx] at h
      simp only [except_bind_ok] at h
      cases hr : rest.mapM (fixEntry defaults) with
      | error e' =>
        rw [hr] at h
        simp at h
        rw [← h]
        exact ih e' hr
      | ok ys =>
        rw [hr] at h
        simp at h

lemma fixContainer_err (defaults : List (String × PyVal)) (c : PyVal) (e : PyExn)
    (h : fixContainer defaults c = .error e) : e = .typeError := by
  cases c with
  | plist xs =>
    replace h : (xs.mapM (fixEntry defaults) >>=
        fun xs' => pure (PyVal.plist xs')) = Except.error e := h
    cases hm : xs.mapM (fixEntry defaults) with
    | error e' =>
      rw [hm] at h
      simp at h
      rw [← h]
      exact mapM_fixEntry_err defaults xs e' hm
    | ok ys =>
      rw [hm] at h
      simp at h
  | pdict kvs =>
    replace h : ((kvs.map (fun kv => PyVal.pstr kv.1)).mapM (fixEntry defaults) >>=
        fun _ => pure (PyVal.pdict kvs)) = Except.error e := h
    cases hm : (kvs.map (fun kv => PyVal.pstr kv.1)).mapM (fixEntry defaults) with
    | error e' =>
      rw [hm] at h
      simp at h
      rw [← h]
      exact mapM_fixEntry_err defaults _ e' hm
    | ok ys =>
      rw [hm] at h
      simp at h
  | pstr str =>
    replace h : ((str.data.map (fun ch => PyVal.pstr (String.singleton ch))).mapM
        (fixEntry defaults) >>= fun _ => pure (PyVal.pstr str)) = Except.error e := h
    cases hm : (str.data.map (fun ch => PyVal.pstr (String.singleton ch))).mapM
        (fixEntry defaults) with
    | error e' =>
      rw [hm] at h
      simp at h
      rw [← h]
      exact mapM_fixEntry_err defaults _ e' hm
    | ok ys =>
      rw [hm] at h
      simp at h
  | pnone =>
    replace h : (Except.error PyExn.typeError >>=
        fun items : List PyVal => (items.mapM (fixEntry defaults) >>=
          fun _ => pure PyVal.pnone)) = Except.error e := h
    simp at h
    exact h.symm
  | pbool b =>
    replace h : (Except.error PyExn.typeError >>=
        fun items : List PyVal => (items.mapM (fixEntry defaults) >>=
          fun _ => pure (PyVal.pbool b))) = Except.error e := h
    simp at h
    exact h.symm
  | pint n =>
    replace h : (Except.error PyExn.typeError >>=
        fun items : List PyVal => (items.mapM (fixEntry defaults) >>=
          fun _ => pure (PyVal.pint n))) = Except.error e := h
    simp at h
    exact h.symm

lemma applyDefaults_not_valueError (v : PyVal) (e : PyExn)
    (h : applyDefaults v = .error e) : e ≠ .valueError := by
  unfold applyDefaults at h
  cases h1 : requiredDefaults.foldlM ensureKey v with
  | error e1 =>
    rw [h1] at h
    simp at h
    rw [← h]
    intro hc
    cases foldlM_ensure_err requiredDefaults v e1 h1 ▸ hc
  | ok v1 =>
    rw [h1] at h
    simp only [except_bind_ok] at h
    cases h2 : pyGetItem v1 "data_models" with
    | error e2 =>
      rw [h2] at h
      simp at h
      rw [← h]
      exact pyGetItem_err v1 "data_models" e2 h2
    | ok dm =>
      rw [h2] at h
      simp only [except_bind_ok] at h
      have step3 : ∀ (v2 : PyVal),
          ((do
            let ad ← pyGetItem v2 "api_definitions"
            let v3 ←
              if ad.truthy then do
                let ad' ← fixContainer apiDefaults ad
                pySetItem v2 "api_definitions" ad'
              else pure v2
            pure v3) : Except PyExn PyVal) = .error e → e ≠ .valueError := by
        intro v2 hh
        cases h4 : pyGetItem v2 "api_definitions" with
        | error e4 =>
          rw [h4] at hh
          simp at hh
          rw [← hh]
          exact pyGetItem_err v2 "api_definitions" e4 h4
        | ok ad =>
          rw [h4] at hh
          simp only [except_bind_ok] at hh
          by_cases hadt : ad.truthy = true
          · rw [if_pos hadt] at hh
            cases h5 : fixContainer apiDefaults ad with
            | error e5 =>
              rw [h5] at hh
              simp at hh
              rw [← hh]
              intro hc
              cases fixContainer_err apiDefaults ad e5 h5 ▸ hc
            | ok ad' =>
              rw [h5] at hh
              simp only [except_bind_ok] at hh
              cases h6 : pySetItem v2 "api_definitions" ad' with
              | error e6 =>
                rw [h6] at hh
                simp at hh
                rw [← hh]
                intro hc
                cases pySetItem_err v2 "api_definitions" ad' e6 h6 ▸ hc
              | ok v3 =>
                rw [h6] at hh
                exact Except.noConfusion hh
          · rw [if_neg hadt] at hh
            exact Except.noConfusion hh
      by_cases hdmt : dm.truthy = true
      · rw [if_pos hdmt] at h
        cases h3 : fixContainer dataModelDefaults dm with
        | error e3 =>
          rw [h3] at h
          simp at h
          rw [← h]
          intro hc
          cases fixContainer_err dataModelDefaults dm e3 h3 ▸ hc
        | ok dm' =>
          rw [h3] at h
          simp only [except_bind_ok] at h
          cases h3b : pySetItem v1 "data_models" dm' with
          | error e3b =>
            rw [h3b] at h
            simp at h
            rw [← h]
            intro hc
            cases pySetItem_err v1 "data_models" dm' e3b h3b ▸ hc
          | ok v2 =>
            rw [h3b] at h
            simp only [except_bind_ok] at h
            exact step3 v2 h
      · rw [if_neg hdmt] at h
        exact step3 v1 h

lemma dictSet_preserves_key (kvs : List (String × PyVal)) (k : String) (v : PyVal)
    (f : String) (h : kvs.any (fun kv => kv.1 == f) = true) :
    (dictSet kvs k v).any (fun kv => kv.1 == f) = true := by
  induction kvs with
  | nil => simp at h
  | cons kv rest ih =>
    obtain ⟨k', v'⟩ := kv
    simp only [List.any_cons] at h
    by_cases hk : (k' == k) = true
    · simp only [dictSet, hk, if_true, List.any_cons]
      rcases Bool.or_eq_true_iff.mp h with hh | hh
      · have : k' = k := eq_of_beq hk
        subst this
        simp [hh]
      · simp [hh]
    · simp only [dictSet, hk, if_false, List.any_cons]
      rcases Bool.or_eq_true_iff.mp h with hh | hh
      · simp [hh]
      · simp [ih hh]

lemma dictSet_self_key (kvs : List (String × PyVal)) (k : String) (v : PyVal) :
    (dictSet kvs k v).any (fun kv => kv.1 == k) = true := by
  induction kvs with
  | nil => simp [dictSet]
  | cons kv rest ih =>
    obtain ⟨k', v'⟩ := kv
    by_cases hk : (k' == k) = true
    · simp [dictSet, hk]
    · simp [dictSet, hk, ih]

lemma dictSet_find_self (kvs : List (String × PyVal)) (k : String) (v : PyVal) :
    (dictSet kvs k v).find? (fun kv => kv.1 == k) = some (k, v) := by
  induction kvs with
  | nil => simp [dictSet]
  | cons kv rest ih =>
    obtain ⟨k', v'⟩ := kv
    by_cases hk : (k' == k) = true
    · simp [dictSet, hk]
    · simp [dictSet, hk, List.find?_cons, ih]

lemma dictSet_find_other (kvs : List (String × PyVal)) (k : String) (v : PyVal)
    (f : String) (hf : f ≠ k) :
    (dictSet kvs k v).find? (fun kv => kv.1 == f) = kvs.find? (fun kv => kv.1 == f) := by
  have hkf : (k == f) = false := beq_eq_false_iff_ne.mpr (fun h => hf h.symm)
  induction kvs with
  | nil => simp [dictSet, hkf]
  | cons kv rest ih =>
    obtain ⟨k', v'⟩ := kv
    by_cases hk : (k' == k) = true
    · have hk' : k' = k := eq_of_beq hk
      subst hk'
      rw [show dictSet ((k', v') :: rest) k' v = (k', v) :: rest from by simp [dictSet]]
      simp [List.find?_cons, hkf]
    · rw [show dictSet ((k', v') :: rest) k v = (k', v') :: dictSet rest k v from by
        simp [dictSet, hk]]
      cases hpf : (k' == f) with
      | true => simp [List.find?_cons, hpf]
      | false => simp [List.find?_cons, hpf, ih]

lemma dictSet_lookup_id (kvs : List (String × PyVal)) (k : String) (u : PyVal)
    (kv0 : String × PyVal) (hfind : kvs.find? (fun kv => kv.1 == k) = some kv0)
    (hval : kv0.2 = u) : dictSet kvs k u = kvs := by
  induction kvs with
  | nil => simp at hfind
  | cons kv rest ih =>
    obtain ⟨k', v'⟩ := kv
    by_cases hk : (k' == k) = true
    · simp only [List.find?_cons, hk] at hfind
      cases hfind
      have : k' = k := eq_of_beq hk
      subst this
      subst hval
      simp [dictSet]
    · have hkf2 : (k' == k) = false := by simpa using hk
      simp only [List.find?_cons, hkf2] at hfind
      simp [dictSet, hk, ih hfind]

lemma pySetItem_shape (v : PyVal) (k : String) (x : PyVal) (v' : PyVal)
    (h : pySetItem v k x = .ok v') :
    ∃ kvs, v = .pdict kvs ∧ v' = .pdict (dictSet kvs k x) := by
  cases v <;> simp [pySetItem] at h
  case pdict kvs => exact ⟨kvs, rfl, h.symm⟩

lemma pyGetItem_shape (v : PyVal) (k : String) (u : PyVal)
    (h : pyGetItem v k = .ok u) :
    ∃ kvs kv, v = .pdict kvs ∧ kvs.find? (fun kv => kv.1 == k) = some kv ∧ kv.2 = u := by
  cases v with
  | pdict kvs =>
    simp only [pyGetItem] at h
    split at h
    next kv hfind =>
      cases h
      exact ⟨kvs, kv, rfl, hfind, rfl⟩
    next => cases h
  | pnone => exact Except.noConfusion h
  | pbool b => exact Except.noConfusion h
  | pint n => exact Except.noConfusion h
  | pstr s => exact Except.noConfusion h
  | plist xs => exact Except.noConfusion h

lemma pySetItem_pres_contains (v v' : PyVal) (k : String) (x : PyVal) (f : String)
    (h : pySetItem v k x = .ok v') (hc : pyContains v f = .ok true) :
    pyContains v' f = .ok true := by
  obtain ⟨kvs, rfl, rfl⟩ := pySetItem_shape v k x v' h
  simp only [pyContains, Except.ok.injEq] at hc ⊢
  exact dictSet_preserves_key kvs k x f hc

lemma ensureKey_pres (cur v' : PyVal) (kd : String × PyVal) (f : String)
    (h : ensureKey cur kd = .ok v') (hc : pyContains cur f = .ok true) :
    pyContains v' f = .ok true := by
  unfold ensureKey at h
  cases hcc : pyContains cur kd.1 with
  | error e => rw [hcc] at h; cases h
  | ok b =>
    rw [hcc] at h
    simp only [except_bind_ok] at h
    cases b with
    | true =>
      rw [if_pos rfl] at h
      cases h
      exact hc
    | false =>
      rw [if_neg (by simp)] at h
      exact pySetItem_pres_contains cur v' kd.1 kd.2 f h hc

lemma ensureKey_estab (cur v' : PyVal) (kd : String × PyVal)
    (h : ensureKey cur kd = .ok v') : pyContains v' kd.1 = .ok true := by
  unfold ensureKey at h
  cases hcc : pyContains cur kd.1 with
  | error e => rw [hcc] at h; cases h
  | ok b =>
    rw [hcc] at h
    simp only [except_bind_ok] at h
    cases b with
    | true =>
      rw [if_pos rfl] at h
      cases h
      exact hcc
    | false =>
      rw [if_neg (by simp)] at h
      obtain ⟨kvs, rfl, rfl⟩ := pySetItem_shape cur kd.1 kd.2 v' h
      simp only [pyContains, Except.ok.injEq]
      exact dictSet_self_key kvs kd.1 kd.2

lemma foldlM_ensure_pres :
    ∀ (l : List (String × PyVal)) (cur v' : PyVal) (f : String),
      List.foldlM ensureKey cur l = .ok v' → pyContains cur f = .ok true →
      pyContains v' f = .ok true := by
  intro l
  induction l with
  | nil =>
    intro cur v' f h hc
    cases h
    exact hc
  | cons kd rest ih =>
    intro cur v' f h hc
    rw [List.foldlM_cons] at h
    cases hk : ensureKey cur kd with
    | error e => rw [hk] at h; cases h
    | ok b =>
      rw [hk] at h
      simp only [except_bind_ok] at h
      exact ih b v' f h (ensureKey_pres cur b kd f hk hc)

lemma foldlM_ensure_estab :
    ∀ (l : List (String × PyVal)) (cur v' : PyVal),
      List.foldlM ensureKey cur l = .ok v' →
      ∀ kd ∈ l, pyContains v' kd.1 = .ok true := by
  intro l
  induction l with
  | nil => intro cur v' _ kd hkd; cases hkd
  | cons kd0 rest ih =>
    intro cur v' h kd hkd
    rw [List.foldlM_cons] at h
    cases hk : ensureKey cur kd0 with
    | error e => rw [hk] at h; cases h
    | ok b =>
      rw [hk] at h
      simp only [except_bind_ok] at h
      rcases List.mem_cons.mp hkd with rfl | hmem
      · exact foldlM_ensure_pres rest b v' kd.1 h (ensureKey_estab cur b kd hk)
      · exact ih b v' h kd hmem

lemma foldlM_ensure_noop :
    ∀ (l : List (String × PyVal)) (cur : PyVal),
      (∀ kd ∈ l, pyContains cur kd.1 = .ok true) →
      List.foldlM ensureKey cur l = .ok cur := by
  intro l
  induction l with
  | nil => intro cur _; rfl
  | cons kd rest ih =>
    intro cur hall
    rw [List.foldlM_cons]
    have hc := hall kd (List.mem_cons_self kd rest)
    have hstep : ensureKey cur kd = .ok cur := by
      unfold ensureKey
      rw [hc]
      exact rfl
    rw [hstep]
    simp only [except_bind_ok]
    exact ih cur (fun kd' hkd' => hall kd' (List.mem_cons_of_mem kd hkd'))

lemma fixEntry_idem (defaults : List (String × PyVal)) (e e' : PyVal)
    (h : fixEntry defaults e = .ok e') : fixEntry defaults e' = .ok e' :=
  foldlM_ensure_noop defaults e' (foldlM_ensure_estab defaults e e' h)

lemma mapM_fixEntry_idem (defaults : List (String × PyVal)) :
    ∀ (xs xs' : List PyVal), xs.mapM (fixEntry defaults) = .ok xs' →
      xs'.mapM (fixEntry defaults) = .ok xs' := by
  intro xs
  induction xs with
  | nil =>
    intro xs' h
    cases h
    rfl
  | cons x rest ih =>
    intro xs' h
    rw [List.mapM_cons] at h
    cases hx : fixEntry defaults x with
    | error e => rw [hx] at h; cases h
    | ok y =>
      rw [hx] at h
      simp only [except_bind_ok] at h
      cases hr : rest.mapM (fixEntry defaults) with
      | error e => rw [hr] at h; cases h
      | ok ys =>
        rw [hr] at h
        simp only [except_bind_ok] at h
        cases h
        rw [List.mapM_cons, fixEntry_idem defaults x y hx]
        simp only [except_bind_ok]
        rw [ih ys hr]
        rfl

lemma mapM_fixEntry_length (defaults : List (String × PyVal)) :
    ∀ (xs xs' : List PyVal), xs.mapM (fixEntry defaults) = .ok xs' →
      xs'.length = xs.length := by
  intro xs
  induction xs with
  | nil =>
    intro xs' h
    cases h
    rfl
  | cons x rest ih =>
    intro xs' h
    rw [List.mapM_cons] at h
    cases hx : fixEntry defaults x with
    | error e => rw [hx] at h; cases h
    | ok y =>
      rw [hx] at h
      simp only [except_bind_ok] at h
      cases hr : rest.mapM (fixEntry defaults) with
      | error e => rw [hr] at h; cases h
      | ok ys =>
        rw [hr] at h
        simp only [except_bind_ok] at h
        cases h
        simp [ih ys hr]

lemma fixContainer_other_shape (defaults : List (String × PyVal)) (c c' : PyVal)
    (hnl : ∀ xs, c ≠ PyVal.plist xs) (h : fixContainer defaults c = .ok c') : c' = c := by
  cases c with
  | plist xs => exact absurd rfl (hnl xs)
  | pdict kvs =>
    replace h : ((kvs.map (fun kv => PyVal.pstr kv.1)).mapM (fixEntry defaults) >>=
        fun _ => pure (PyVal.pdict kvs)) = Except.ok c' := h
    cases hm : (kvs.map (fun kv => PyVal.pstr kv.1)).mapM (fixEntry defaults) with
    | error e => rw [hm] at h; cases h
    | ok ys =>
      rw [hm] at h
      cases h
      rfl
  | pstr str =>
    replace h : ((str.data.map (fun ch => PyVal.pstr (String.singleton ch))).mapM
        (fixEntry defaults) >>= fun _ => pure (PyVal.pstr str)) = Except.ok c' := h
    cases hm : (str.data.map (fun ch => PyVal.pstr (String.singleton ch))).mapM
        (fixEntry defaults) with
    | error e => rw [hm] at h; cases h
    | ok ys =>
      rw [hm] at h
      cases h
      rfl
  | pnone => exact Except.noConfusion h
  | pbool b => exact Except.noConfusion h
  | pint n => exact Except.noConfusion h

lemma fixContainer_idem (defaults : List (String × PyVal)) (c c' : PyVal)
    (h : fixContainer defaults c = .ok c') : fixContainer defaults c' = .ok c' := by
  cases c with
  | plist xs =>
    replace h : (xs.mapM (fixEntry defaults) >>=
        fun xs' => pure (PyVal.plist xs')) = Except.ok c' := h
    cases hm : xs.mapM (fixEntry defaults) with
    | error e => rw [hm] at h; cases h
    | ok ys =>
      rw [hm] at h
      cases h
      show (ys.mapM (fixEntry defaults) >>= fun xs' => pure (PyVal.plist xs')) = _
      rw [mapM_fixEntry_idem defaults xs ys hm]
      rfl
  | pdict kvs =>
    have := fixContainer_other_shape defaults (PyVal.pdict kvs) c' (by intro xs hx; cases hx) h
    subst this
    exact h
  | pstr str =>
    have := fixContainer_other_shape defaults (PyVal.pstr str) c' (by intro xs hx; cases hx) h
    subst this
    exact h
  | pnone => exact Except.noConfusion h
  | pbool b => exact Except.noConfusion h
  | pint n => exact Except.noConfusion h

lemma fixContainer_truthy (defaults : List (String × PyVal)) (c c' : PyVal)
    (h : fixContainer defaults c = .ok c') (ht : c.truthy = true) : c'.truthy = true := by
  cases c with
  | plist xs =>
    replace h : (xs.mapM (fixEntry defaults) >>=
        fun xs' => pure (PyVal.plist xs')) = Except.ok c' := h
    cases hm : xs.mapM (fixEntry defaults) with
    | error e => rw [hm] at h; cases h
    | ok ys =>
      rw [hm] at h
      cases h
      have hlen := mapM_fixEntry_length defaults xs ys hm
      simp only [PyVal.truthy] at ht ⊢
      cases xs with
      | nil => simp at ht
      | cons a as =>
        cases ys with
        | nil => simp at hlen
        | cons b bs => simp
  | pdict kvs =>
    have := fixContainer_other_shape defaults (PyVal.pdict kvs) c' (by intro xs hx; cases hx) h
    subst this
    exact ht
  | pstr str =>
    have := fixContainer_other_shape defaults (PyVal.pstr str) c' (by intro xs hx; cases hx) h
    subst this
    exact ht
  | pnone => exact Except.noConfusion h
  | pbool b => exact Except.noConfusion h
  | pint n => exact Except.noConfusion h

lemma pySetItem_get_self (v : PyVal) (k : String) (x : PyVal) (v' : PyVal)
    (h : pySetItem v k x = .ok v') : pyGetItem v' k = .ok x := by
  obtain ⟨kvs, rfl, rfl⟩ := pySetItem_shape v k x v' h
  simp only [pyGetItem, dictSet_find_self]

lemma pySetItem_get_other (v : PyVal) (k : String) (x : PyVal) (v' : PyVal) (k' : String)
    (h : pySetItem v k x = .ok v') (hne : k' ≠ k) : pyGetItem v' k' = pyGetItem v k' := by
  obtain ⟨kvs, rfl, rfl⟩ := pySetItem_shape v k x v' h
  simp only [pyGetItem, dictSet_find_other kvs k x k' hne]

lemma pyGetItem_set_self (v : PyVal) (k : String) (u : PyVal)
    (h : pyGetItem v k = .ok u) : pySetItem v k u = .ok v := by
  obtain ⟨kvs, kv, rfl, hfind, hval⟩ := pyGetItem_shape v k u h
  simp only [pySetItem]
  rw [dictSet_lookup_id kvs k u kv hfind hval]

lemma apiSection_idem (v2 w : PyVal)
    (hsec : ((do
      let ad ← pyGetItem v2 "api_definitions"
      let v3 ←
        if ad.truthy then do
          let ad' ← fixContainer apiDefaults ad
          pySetItem v2 "api_definitions" ad'
        else pure v2
      pure v3) : Except PyExn PyVal) = Except.ok w) :
    ((do
      let ad ← pyGetItem w "api_definitions"
      let v3 ←
        if ad.truthy then do
          let ad' ← fixContainer apiDefaults ad
          pySetItem w "api_definitions" ad'
        else pure w
      pure v3) : Except PyExn PyVal) = Except.ok w ∧
    (∀ f, pyContains v2 f = .ok true → pyContains w f = .ok true) ∧
    (∀ k', k' ≠ "api_definitions" → pyGetItem w k' = pyGetItem v2 k') := by
  cases h5 : pyGetItem v2 "api_definitions" with
  | error e => rw [h5] at hsec; cases hsec
  | ok ad =>
    rw [h5] at hsec
    simp only [except_bind_ok] at hsec
    by_cases hadt : ad.truthy = true
    · rw [if_pos hadt] at hsec
      cases h6 : fixContainer apiDefaults ad with
      | error e => rw [h6] at hsec; cases hsec
      | ok ad' =>
        rw [h6] at hsec
        simp only [except_bind_ok] at hsec
        cases h7 : pySetItem v2 "api_definitions" ad' with
        | error e => rw [h7] at hsec; cases hsec
        | ok v3 =>
          rw [h7] at hsec
          simp only [except_bind_ok] at hsec
          cases hsec
          have hget : pyGetItem w "api_definitions" = .ok ad' :=
            pySetItem_get_self v2 "api_definitions" ad' w h7
          have htr' : ad'.truthy = true := fixContainer_truthy apiDefaults ad ad' h6 hadt
          refine ⟨?_, ?_, ?_⟩
          · rw [hget]
            simp only [except_bind_ok]
            rw [if_pos htr', fixContainer_idem apiDefaults ad ad' h6]
            simp only [except_bind_ok]
            rw [pyGetItem_set_self w "api_definitions" ad' hget]
            rfl
          · intro f hf
            exact pySetItem_pres_contains v2 w "api_definitions" ad' f h7 hf
          · intro k' hk'
            exact pySetItem_get_other v2 "api_definitions" ad' w k' h7 hk'
    · rw [if_neg hadt] at hsec
      replace hsec : Except.ok v2 = Except.ok w := hsec
      cases hsec
      refine ⟨?_, fun f hf => hf, fun k' _ => rfl⟩
      rw [h5]
      simp only [except_bind_ok]
      rw [if_neg hadt]
      rfl

lemma except_pure {ε α : Type} (a : α) : (pure a : Except ε α) = Except.ok a := rfl

lemma applyDefaults_props (v w : PyVal) (h : applyDefaults v = .ok w) :
    applyDefaults w = .ok w ∧ ∀ f ∈ requiredFields, pyContains w f = .ok true := by
  unfold applyDefaults at h ⊢
  cases h1 : List.foldlM ensureKey v requiredDefaults with
  | error e => rw [h1] at h; cases h
  | ok v1 =>
    rw [h1] at h
    simp only [except_bind_ok] at h
    have hfields1 := foldlM_ensure_estab requiredDefaults v v1 h1
    cases h2 : pyGetItem v1 "data_models" with
    | error e => rw [h2] at h; cases h
    | ok dm =>
      rw [h2] at h
      simp only [except_bind_ok] at h
      by_cases hdmt : dm.truthy = true
      · rw [if_pos hdmt] at h
        cases h3 : fixContainer dataModelDefaults dm with
        | error e => rw [h3] at h; cases h
        | ok dm' =>
          rw [h3] at h
          simp only [except_bind_ok] at h
          cases h4 : pySetItem v1 "data_models" dm' with
          | error e => rw [h4] at h; cases h
          | ok v2 =>
            rw [h4] at h
            simp only [except_bind_ok] at h
            obtain ⟨hsec', hpres, hother⟩ := apiSection_idem v2 w h
            have hfieldsW : ∀ kd ∈ requiredDefaults, pyContains w kd.1 = .ok true :=
              fun kd hkd => hpres kd.1
                (pySetItem_pres_contains v1 v2 "data_models" dm' kd.1 h4 (hfields1 kd hkd))
            have hgetw : pyGetItem w "data_models" = .ok dm' := by
              rw [hother "data_models" (by decide)]
              exact pySetItem_get_self v1 "data_models" dm' v2 h4
            have htr' : dm'.truthy = true := fixContainer_truthy dataModelDefaults dm dm' h3 hdmt
            constructor
            · rw [foldlM_ensure_noop requiredDefaults w hfieldsW]
              simp only [except_bind_ok]
              rw [hgetw]
              simp only [except_bind_ok]
              rw [if_pos htr', fixContainer_idem dataModelDefaults dm dm' h3]
              simp only [except_bind_ok]
              rw [pyGetItem_set_self w "data_models" dm' hgetw]
              simp only [except_bind_ok]
              exact hsec'
            · intro f hf
              exact hfieldsW (f, PyVal.plist [])
                (by unfold requiredDefaults; exact List.mem_map_of_mem _ hf)
      · rw [if_neg hdmt] at h
        replace h : ((do
            let ad ← pyGetItem v1 "api_definitions"
            let v3 ←
              if ad.truthy then do
                let ad' ← fixContainer apiDefaults ad
                pySetItem v1 "api_definitions" ad'
              else pure v1
            pure v3) : Except PyExn PyVal) = Except.ok w := h
        obtain ⟨hsec', hpres, hother⟩ := apiSection_idem v1 w h
        have hfieldsW : ∀ kd ∈ requiredDefaults, pyContains w kd.1 = .ok true :=
          fun kd hkd => hpres kd.1 (hfields1 kd hkd)
        have hgetw : pyGetItem w "data_models" = .ok dm := by
          rw [hother "data_models" (by decide)]
          exact h2
        constructor
        · rw [foldlM_ensure_noop requiredDefaults w hfieldsW]
          simp only [except_bind_ok]
          rw [hgetw]
          simp only [except_bind_ok]
          rw [if_neg hdmt]
          simp only [except_pure, except_bind_ok]
          exact hsec'
        · intro f hf
          exact hfieldsW (f, PyVal.plist [])
            (by unfold requiredDefaults; exact List.mem_map_of_mem _ hf)

lemma foldlM_ensure_plist :
    ∀ (l : List (String × PyVal)) (xs : List PyVal),
      List.foldlM ensureKey (PyVal.plist xs) l = .ok (PyVal.plist xs) ∨
      List.foldlM ensureKey (PyVal.plist xs) l = .error PyExn.typeError := by
  intro l
  induction l with
  | nil => intro xs; left; rfl
  | cons kd rest ih =>
    intro xs
    rw [List.foldlM_cons]
    cases hc : (xs.any fun x => match x with | PyVal.pstr t => t == kd.1 | _ => false) with
    | true =>
      have hstep : ensureKey (PyVal.plist xs) kd = .ok (PyVal.plist xs) := by
        unfold ensureKey
        rw [show pyContains (PyVal.plist xs) kd.1 = .ok true from by
          simp only [pyContains, hc]]
        exact rfl
      rw [hstep]
      simp only [except_bind_ok]
      exact ih xs
    | false =>
      right
      have hstep : ensureKey (PyVal.plist xs) kd = .error PyExn.typeError := by
        unfold ensureKey
        rw [show pyContains (PyVal.plist xs) kd.1 = .ok false from by
          simp only [pyContains, hc]]
        exact rfl
      rw [hstep]
      rfl

lemma applyDefaults_plist (xs : List PyVal) :
    applyDefaults (PyVal.plist xs) = .error PyExn.typeError := by
  unfold applyDefaults
  rcases foldlM_ensure_plist requiredDefaults xs with hf | hf
  · rw [hf]
    simp only [except_bind_ok]
    rw [show pyGetItem (PyVal.plist xs) "data_models" = Except.error PyExn.typeError from rfl]
    rfl
  · rw [hf]
    rfl

/-- C5 (counterexample): the fence-stripped text "[]" decodes to a top-level
JSON array, and `parse_response` on it raises a `TypeError` (from the
defaulting assignment on a list), not the `ValueError` that models the
`MalformedResponse` class. -/
theorem parse_malformed_counterexample :
    jsonLoads (stripFences "[]") = some (PyVal.plist []) ∧
      parse_response jsonLoads "[]" = .error .typeError ∧
      PyExn.typeError ≠ PyExn.valueError :=
  ⟨rfl, rfl, by decide⟩

/-- C5 (amended): `parse_response` raises `ValueError` exactly when the
fence-stripped payload is not decodable JSON; a decodable top-level array
instead raises an uncaught `TypeError`; and on success every
required-but-absent field has been filled, so the result contains all
required fields. -/
theorem parse_response_error_classes (loads : String → Option PyVal) (s : String) :
    (parse_response loads s = .error .valueError ↔ loads (stripFences s) = none) ∧
      (∀ xs, loads (stripFences s) = some (PyVal.plist xs) →
        parse_response loads s = .error .typeError) ∧
      (∀ w, parse_response loads s = .ok w →
        ∀ f ∈ requiredFields, pyContains w f = .ok true) := by
  refine ⟨⟨?_, ?_⟩, ?_, ?_⟩
  · intro h
    unfold parse_response at h
    cases hl : loads (stripFences s) with
    | none => rfl
    | some v =>
      rw [hl] at h
      exact absurd rfl (applyDefaults_not_valueError v _ h)
  · intro h
    unfold parse_response
    rw [h]
  · intro xs h
    unfold parse_response
    rw [h]
    exact applyDefaults_plist xs
  · intro w h f hf
    unfold parse_response at h
    cases hl : loads (stripFences s) with
    | none => rw [hl] at h; cases h
    | some v =>
      rw [hl] at h
      exact (applyDefaults_props v w h).2 f hf

/-- Witness for the amended C5: with the JSON codec model, an undecodable
payload raises `ValueError`, an array raises `TypeError`, and a successful
parse of an empty object contains every required field. -/
theorem parse_response_error_classes_witness :
    parse_response jsonLoads "not json" = .error .valueError ∧
      parse_response jsonLoads "[1, 2]" = .error .typeError ∧
      pyContains (PyVal.pdict
        [("function_points", .plist []), ("business_rules", .plist []),
         ("data_models", .plist []), ("api_definitions", .plist []),
         ("test_focus", .plist []), ("risk_points", .plist [])]) "test_focus" = .ok true := by
  refine ⟨?_, ?_, ?_⟩
  · exact (parse_response_error_classes jsonLoads "not json").1.mpr rfl
  · exact (parse_response_error_classes jsonLoads "[1, 2]").2.1 [PyVal.pint 1, PyVal.pint 2] rfl
  · exact (parse_response_error_classes jsonLoads "\x7b\x7d").2.2
      (PyVal.pdict
        [("function_points", .plist []), ("business_rules", .plist []),
         ("data_models", .plist []), ("api_definitions", .plist []),
         ("test_focus", .plist []), ("risk_points", .plist [])]) rfl
      "test_focus" (by decide)

/-- C9: defaulting idempotence — if `parse_response` produced the payload
`w` from some text, then re-parsing any serialization of `w` that the JSON
codec decodes back to `w` (as `json.dumps` output does) yields exactly `w`
again, with no accumulation or alteration of defaulted fields. -/
theorem parse_response_idempotent (loads : String → Option PyVal)
    (dumps : PyVal → String) (s : String) (w : PyVal)
    (h1 : parse_response loads s = .ok w)
    (h2 : loads (stripFences (dumps w)) = some w) :
    parse_response loads (dumps w) = .ok w := by
  unfold parse_response at h1 ⊢
  rw [h2]
  cases hl : loads (stripFences s) with
  | none => rw [hl] at h1; cases h1
  | some v =>
    rw [hl] at h1
    exact (applyDefaults_props v w h1).1

/-- Witness for C9: the payload parsed from an empty object, serialized by
the JSON serializer and re-parsed, is returned unchanged. -/
theorem parse_response_idempotent_witness :
    parse_response jsonLoads
      (jsonDumps (PyVal.pdict
        [("function_points", .plist []), ("business_rules", .plist []),
         ("data_models", .plist []), ("api_definitions", .plist []),
         ("test_focus", .plist []), ("risk_points", .plist [])])) =
      .ok (PyVal.pdict
        [("function_points", .plist []), ("business_rules", .plist []),
         ("data_models", .plist []), ("api_definitions", .plist []),
         ("test_focus", .plist []), ("risk_points", .plist [])]) :=
  parse_response_idempotent jsonLoads jsonDumps "\x7b\x7d" _ rfl rfl
